import Mathlib

/-!
Verification of the ShuffleNet V2 implementation
(`chainer_/chainercv2/models/shufflenetv2.py`).

Tensors are modelled as 4-axis arrays (batch, channel, height, width) of
rationals, with the data given by a total function and the semantic extent
recorded in the shape fields.  Chainer operations that can fail on a shape
mismatch are modelled as `Option`-valued functions; `none` models the
exception (no partial output).  Floating-point width scales are modelled as
exact rationals with Python `int()` truncation; at every scale used in a
theorem the IEEE-double computation of the source agrees with the exact
rational truncation.
-/

/-- A 4-dimensional tensor (batch, channels, height, width).  Entries outside
the recorded extent are irrelevant junk. -/
structure Tensor where
  batch : ℕ
  channels : ℕ
  height : ℕ
  width : ℕ
  data : ℕ → ℕ → ℕ → ℕ → ℚ

/-- Value of a zero-padded tensor (padding `p` on each spatial border):
coordinates are in the padded frame. -/
def Tensor.padAt (t : Tensor) (p n c i j : ℕ) : ℚ :=
  if p ≤ i ∧ i < t.height + p ∧ p ≤ j ∧ j < t.width + p then
    t.data n c (i - p) (j - p)
  else 0

/-- Spatial output size of a convolution/pooling window sweep
(Chainer formula, `cover_all=False`). -/
def convOutSize (size k s p : ℕ) : ℕ := (size + 2 * p - k) / s + 1

/-- `L.Convolution2D` with `nobias=True`: grouped 2-D convolution.  The
weight `w o c u v` is indexed by output channel, in-group input channel and
kernel position.  Errors (`none`) when the input channel count differs from
the constructed `in_channels` or a kernel window does not fit. -/
def conv2d (inC outC k s p g : ℕ) (w : ℕ → ℕ → ℕ → ℕ → ℚ) (x : Tensor) :
    Option Tensor :=
  if x.channels = inC ∧ k ≤ x.height + 2 * p ∧ k ≤ x.width + 2 * p then
    some { batch := x.batch, channels := outC,
           height := convOutSize x.height k s p,
           width := convOutSize x.width k s p,
           data := fun n o i j =>
             ∑ c ∈ Finset.range (inC / g), ∑ u ∈ Finset.range k,
               ∑ v ∈ Finset.range k,
                 w o c u v *
                   x.padAt p n ((o / (outC / g)) * (inC / g) + c)
                     (i * s + u) (j * s + v) }
  else none

/-- Inference-time parameters of `L.BatchNormalization`: the per-channel
affine map obtained by folding the learned gamma/beta with the stored
statistics (scale = gamma / sqrt(var + eps), shift = beta - mean * scale). -/
structure BNP where
  scale : ℕ → ℚ
  shift : ℕ → ℚ

/-- `L.BatchNormalization` at inference: per-channel affine transform.
Errors when the channel count differs from the constructed `size`. -/
def batchNorm (size : ℕ) (p : BNP) (x : Tensor) : Option Tensor :=
  if x.channels = size then
    some { x with data := fun n c i j => p.scale c * x.data n c i j + p.shift c }
  else none

/-- `F.relu`: pointwise maximum with zero. -/
def relu (x : Tensor) : Tensor :=
  { x with data := fun n c i j => max (x.data n c i j) 0 }

/-- First half of the channels (`F.split_axis(x, 2, axis=1)`, first part). -/
def fstHalf (x : Tensor) : Tensor :=
  { x with channels := x.channels / 2 }

/-- Second half of the channels (`F.split_axis(x, 2, axis=1)`, second part). -/
def sndHalf (x : Tensor) : Tensor :=
  { x with
      channels := x.channels / 2
      data := fun n c i j => x.data n (x.channels / 2 + c) i j }

/-- `F.split_axis(x, indices_or_sections=2, axis=1)`: errors unless the
channel count is divisible by 2. -/
def split_axis2 (x : Tensor) : Option (Tensor × Tensor) :=
  if x.channels % 2 = 0 then some (fstHalf x, sndHalf x) else none

/-- `F.concat((a, b), axis=1)`: errors unless batch and spatial dims agree. -/
def concat2 (a b : Tensor) : Option Tensor :=
  if a.batch = b.batch ∧ a.height = b.height ∧ a.width = b.width then
    some { a with
             channels := a.channels + b.channels
             data := fun n c i j =>
               if c < a.channels then a.data n c i j
               else b.data n (c - a.channels) i j }
  else none

/-- Elementwise `y2 + x2` (shapes agree at the call site in the source). -/
def addT (a b : Tensor) : Option Tensor :=
  if a.batch = b.batch ∧ a.channels = b.channels ∧ a.height = b.height ∧
      a.width = b.width then
    some { a with data := fun n c i j => a.data n c i j + b.data n c i j }
  else none

/-- Modelled from the spec: the channel-shuffle data transform of the missing
`common.py` (`ChannelShuffle.__call__`).  Spec 4.1: reshape the channel axis
into [G, C/G], transpose to [C/G, G], flatten back; output channel
`o*G + g` holds original channel `g*(C/G) + o`.  No check is performed at
call time ("validated at construction, not at every forward call"); the
channel count is read from the argument tensor. -/
def channel_shuffle (x : Tensor) (groups : ℕ) : Tensor :=
  { x with data := fun n c i j =>
      x.data n ((c % groups) * (x.channels / groups) + c / groups) i j }

/-- Modelled from the spec: the `ChannelShuffle` block of the missing
`common.py` — it records the `channels` and `groups` constructor arguments
and validates `channels % groups == 0` at construction time (spec 4.1). -/
structure ChannelShuffle where
  channels : ℕ
  groups : ℕ

/-- Construction-time divisibility validation of `ChannelShuffle`
(spec 4.1: "a configuration error if C is not divisible by G, validated at
construction"). -/
def ChannelShuffle.constructOkB (cs : ChannelShuffle) : Bool :=
  cs.channels % cs.groups == 0

/-- Forward call of `ChannelShuffle`: applies the shuffle with the stored
group count to the actual argument tensor. -/
def ChannelShuffle.run (cs : ChannelShuffle) (x : Tensor) : Tensor :=
  channel_shuffle x cs.groups

/-- Per-channel spatial means of one batch entry (the "global summary" used
by the SE gate). -/
def channelMeans (x : Tensor) (n : ℕ) : List ℚ :=
  (List.range x.channels).map fun c =>
    (∑ i ∈ Finset.range x.height, ∑ j ∈ Finset.range x.width, x.data n c i j) /
      ((x.height : ℚ) * (x.width : ℚ))

/-- Modelled from the spec: `SEBlock` of the missing `common.py` — "a
channel-wise gating mechanism that rescales feature channels based on a
global summary of the feature map".  The learned squeeze/excite computation
is abstracted as the `gate` function from the per-channel summary to the
per-channel scale; the block multiplies each channel by its gate value and
preserves the shape. -/
def seBlock (gate : List ℚ → ℕ → ℚ) (x : Tensor) : Tensor :=
  { x with data := fun n c i j => gate (channelMeans x n) c * x.data n c i j }

/-- Maximum of a pooling window, folded over the window elements. -/
def windowMax (x : Tensor) (k s n c i j : ℕ) : ℚ :=
  (List.range k).foldr
    (fun u acc =>
      (List.range k).foldr
        (fun v acc2 => max (x.data n c (i * s + u) (j * s + v)) acc2) acc)
    (x.data n c (i * s) (j * s))

/-- `F.max_pooling_2d` with `pad=0, cover_all=False`: windows that do not
fully fit are dropped; errors when no window fits at all. -/
def max_pooling_2d (k s : ℕ) (x : Tensor) : Option Tensor :=
  if k ≤ x.height ∧ k ≤ x.width then
    some { x with
             height := (x.height - k) / s + 1
             width := (x.width - k) / s + 1
             data := fun n c i j => windowMax x k s n c i j }
  else none

/-- Sum of a pooling window. -/
def windowSum (x : Tensor) (k s n c i j : ℕ) : ℚ :=
  ∑ u ∈ Finset.range k, ∑ v ∈ Finset.range k,
    x.data n c (i * s + u) (j * s + v)

/-- `F.average_pooling_2d` with `pad=0`: errors when the window does not
fit. -/
def average_pooling_2d (k s : ℕ) (x : Tensor) : Option Tensor :=
  if k ≤ x.height ∧ k ≤ x.width then
    some { x with
             height := (x.height - k) / s + 1
             width := (x.width - k) / s + 1
             data := fun n c i j =>
               windowSum x k s n c i j / ((k : ℚ) * (k : ℚ)) }
  else none

/-- A 2-dimensional tensor, produced by the flattening reshape. -/
structure Mat2 where
  rows : ℕ
  cols : ℕ
  data : ℕ → ℕ → ℚ

/-- `F.reshape(x, shape=(-1, cols))`: row-major flattening; errors unless
the element count is divisible by `cols`. -/
def reshapeFlatten (cols : ℕ) (x : Tensor) : Option Mat2 :=
  if (x.batch * x.channels * x.height * x.width) % cols = 0 then
    some { rows := x.batch * x.channels * x.height * x.width / cols,
           cols := cols,
           data := fun r q =>
             x.data ((r * cols + q) / (x.channels * x.height * x.width))
               ((r * cols + q) / (x.height * x.width) % x.channels)
               ((r * cols + q) / x.width % x.height)
               ((r * cols + q) % x.width) }
  else none

/-- Parameters of `L.Linear` (weight and bias). -/
structure LinearP where
  weight : ℕ → ℕ → ℚ
  bias : ℕ → ℚ

/-- `L.Linear(in_size, out_size)`: affine map on the feature axis; errors
when the feature count differs from the constructed `in_size`. -/
def linear (inSize outSize : ℕ) (p : LinearP) (m : Mat2) : Option Mat2 :=
  if m.cols = inSize then
    some { rows := m.rows, cols := outSize,
           data := fun r o =>
             p.bias o + ∑ c ∈ Finset.range inSize, p.weight o c * m.data r c }
  else none

/-- Weights of a `ShuffleConv` block together with the constructor arguments
(`in_channels`, `out_channels`, `ksize`, `stride`, `pad`) of the source
class `ShuffleConv`. -/
structure ShuffleConv where
  in_channels : ℕ
  out_channels : ℕ
  ksize : ℕ
  stride : ℕ
  pad : ℕ
  conv_w : ℕ → ℕ → ℕ → ℕ → ℚ
  bn : BNP

/-- `ShuffleConv.__call__`: convolution, batch normalization, ReLU. -/
def ShuffleConv.run (c : ShuffleConv) (x : Tensor) : Option Tensor :=
  (conv2d c.in_channels c.out_channels c.ksize c.stride c.pad 1 c.conv_w x).bind
    fun y => (batchNorm c.out_channels c.bn y).map relu

/-- The weight families of one `ShuffleUnit` (each convolution weight and
each inference-time batch-normalization affine, plus the abstract SE gate). -/
structure UnitW where
  compress_w : ℕ → ℕ → ℕ → ℕ → ℚ
  compress_bn1 : BNP
  dw2_w : ℕ → ℕ → ℕ → ℕ → ℚ
  dw_bn2 : BNP
  expand3_w : ℕ → ℕ → ℕ → ℕ → ℚ
  expand_bn3 : BNP
  dw4_w : ℕ → ℕ → ℕ → ℕ → ℚ
  dw_bn4 : BNP
  expand5_w : ℕ → ℕ → ℕ → ℕ → ℚ
  expand_bn5 : BNP
  se_gate : List ℚ → ℕ → ℚ

/-- A `ShuffleUnit`: its constructor arguments plus its weights.  The
sub-layer sizes used by the forward pass are derived from these fields
exactly as `ShuffleUnit.__init__` derives them. -/
structure ShuffleUnit where
  in_channels : ℕ
  out_channels : ℕ
  downsample : Bool
  use_se : Bool
  use_residual : Bool
  w : UnitW

/-- `mid_channels = out_channels // 2` of `ShuffleUnit.__init__`. -/
def ShuffleUnit.mid_channels (u : ShuffleUnit) : ℕ := u.out_channels / 2

/-- The `ChannelShuffle` sub-block as constructed in `ShuffleUnit.__init__`:
`ChannelShuffle(channels=mid_channels, groups=2)`. -/
def ShuffleUnit.c_shuffle (u : ShuffleUnit) : ChannelShuffle :=
  ⟨u.mid_channels, 2⟩

/-- Construction-time validation performed while building a `ShuffleUnit`:
only the `ChannelShuffle` constructor validates anything. -/
def ShuffleUnit.constructOkB (u : ShuffleUnit) : Bool :=
  u.c_shuffle.constructOkB

/-- The transform branch of `ShuffleUnit.__call__` (source lines 171-180):
compress 1x1 conv, BN, ReLU, depthwise 3x3 conv, BN, expand 1x1 conv, BN,
ReLU, then the optional SE block.  Sub-layer sizes follow
`ShuffleUnit.__init__`. -/
def ShuffleUnit.transform (u : ShuffleUnit) (x2 : Tensor) : Option Tensor :=
  let mid := u.mid_channels
  (conv2d (if u.downsample then u.in_channels else mid) mid 1 1 0 1
      u.w.compress_w x2).bind fun y2 =>
  (batchNorm mid u.w.compress_bn1 y2).bind fun y2 =>
  (conv2d mid mid 3 (if u.downsample then 2 else 1) 1 mid u.w.dw2_w
      (relu y2)).bind fun y2 =>
  (batchNorm mid u.w.dw_bn2 y2).bind fun y2 =>
  (conv2d mid mid 1 1 0 1 u.w.expand3_w y2).bind fun y2 =>
  (batchNorm mid u.w.expand_bn3 y2).map fun y2 =>
  if u.use_se then seBlock u.w.se_gate (relu y2) else relu y2

/-- `ShuffleUnit.__call__` up to (but excluding) the final channel shuffle:
the identity/downsample branch, the transform branch, the optional residual
addition and the concatenation. -/
def ShuffleUnit.preShuffle (u : ShuffleUnit) (x : Tensor) : Option Tensor :=
  (if u.downsample then
      (conv2d u.in_channels u.in_channels 3 2 1 u.in_channels u.w.dw4_w
          x).bind fun y1 =>
      (batchNorm u.in_channels u.w.dw_bn4 y1).bind fun y1 =>
      (conv2d u.in_channels u.mid_channels 1 1 0 1 u.w.expand5_w y1).bind
        fun y1 =>
      (batchNorm u.mid_channels u.w.expand_bn5 y1).map fun y1 => (relu y1, x)
    else split_axis2 x).bind fun p =>
  (u.transform p.2).bind fun y2 =>
  (if u.use_residual && !u.downsample then addT y2 p.2 else some y2).bind
    fun y2 =>
  concat2 p.1 y2

/-- `ShuffleUnit.__call__`: branches, concatenation, channel shuffle. -/
def ShuffleUnit.forward (u : ShuffleUnit) (x : Tensor) : Option Tensor :=
  (u.preShuffle x).map u.c_shuffle.run

/-- `ShuffleInitBlock`: a 3x3 stride-2 pad-1 `ShuffleConv` followed by a
3x3 stride-2 max-pool (`pad=0`, `cover_all=False`). -/
structure ShuffleInitBlock where
  conv : ShuffleConv

/-- `ShuffleInitBlock.__call__`. -/
def ShuffleInitBlock.run (b : ShuffleInitBlock) (x : Tensor) : Option Tensor :=
  (b.conv.run x).bind (max_pooling_2d 3 2)

/-- The whole `ShuffleNetV2` model: init block, stages of units, final 1x1
block, and the classifier head sizes and weights. -/
structure ShuffleNetV2 where
  init_block : ShuffleInitBlock
  stages : List (List ShuffleUnit)
  final_block : ShuffleConv
  final_channels : ℕ
  classes : ℕ
  fc : LinearP

/-- Sequential application of the units of one stage
(`SimpleSequential`). -/
def runUnits : List ShuffleUnit → Tensor → Option Tensor
  | [], x => some x
  | u :: us, x => (u.forward x).bind (runUnits us)

/-- Sequential application of the stages. -/
def runStages : List (List ShuffleUnit) → Tensor → Option Tensor
  | [], x => some x
  | s :: ss, x => (runUnits s x).bind (runStages ss)

/-- `ShuffleNetV2.__call__`: init block, stages, final block, 7x7 stride-1
average pooling, flatten to `(-1, final_channels)`, fully-connected layer. -/
def ShuffleNetV2.forward (net : ShuffleNetV2) (x : Tensor) : Option Mat2 :=
  (net.init_block.run x).bind fun x =>
  (runStages net.stages x).bind fun x =>
  (net.final_block.run x).bind fun x =>
  (average_pooling_2d 7 1 x).bind fun x =>
  (reshapeFlatten net.final_channels x).bind fun m =>
  linear net.final_channels net.classes net.fc m

/-- Weight supply for a whole network: one weight family per constructed
link, addressed by stage index and unit index for the units. -/
structure NetW where
  init_w : ℕ → ℕ → ℕ → ℕ → ℚ
  init_bn : BNP
  unit_w : ℕ → ℕ → UnitW
  final_w : ℕ → ℕ → ℕ → ℕ → ℚ
  final_bn : BNP
  fc : LinearP

/-- The units of one stage, following the constructor loop of
`ShuffleNetV2.__init__`: unit `j` has `downsample = (j == 0)` and consumes
the running channel count. -/
def buildUnits (use_se use_residual : Bool) (w : ℕ → UnitW) :
    ℕ → ℕ → List ℕ → List ShuffleUnit
  | _, _, [] => []
  | j, inC, c :: rest =>
    ⟨inC, c, j == 0, use_se, use_residual, w j⟩ ::
      buildUnits use_se use_residual w (j + 1) c rest

/-- The stages of the network, threading the running channel count. -/
def buildStages (use_se use_residual : Bool) (w : ℕ → ℕ → UnitW) :
    ℕ → ℕ → List (List ℕ) → List (List ShuffleUnit)
  | _, _, [] => []
  | i, inC, cs :: rest =>
    buildUnits use_se use_residual (w i) 0 inC cs ::
      buildStages use_se use_residual w (i + 1) (cs.foldl (fun _ c => c) inC)
        rest

/-- The running channel count after a list of stages. -/
def lastChannel (inC : ℕ) (channels : List (List ℕ)) : ℕ :=
  channels.foldl (fun acc cs => cs.foldl (fun _ c => c) acc) inC

/-- `ShuffleNetV2.__init__`: builds the init block, the stages, the final
1x1 block (consuming the running channel count) and the classifier head. -/
def mkShuffleNetV2 (channels : List (List ℕ))
    (init_block_channels final_block_channels : ℕ)
    (use_se use_residual : Bool) (in_chs classes : ℕ) (Wt : NetW) :
    ShuffleNetV2 :=
  { init_block := ⟨⟨in_chs, init_block_channels, 3, 2, 1, Wt.init_w,
      Wt.init_bn⟩⟩
    stages := buildStages use_se use_residual Wt.unit_w 0 init_block_channels
      channels
    final_block := ⟨lastChannel init_block_channels channels,
      final_block_channels, 1, 1, 0, Wt.final_w, Wt.final_bn⟩
    final_channels := final_block_channels
    classes := classes
    fc := Wt.fc }

/-- Python `int()` applied to an exact rational: truncation toward zero. -/
def pyint (q : ℚ) : ℤ := if 0 ≤ q then ⌊q⌋ else -⌊-q⌋

/-- The channel configuration computed by `get_shufflenetv2`. -/
structure FactoryCfg where
  channels : List (List ℤ)
  init_block_channels : ℤ
  final_block_channels : ℤ
  deriving DecidableEq

/-- The configuration part of `get_shufflenetv2`: canonical bases
`[116, 232, 464]` with layers `[4, 8, 4]`, init/final block channels
`24`/`1024`; when `width_scale != 1.0` every stage channel is scaled and
truncated, and when additionally `width_scale > 1.5` the final block
channel count is scaled and truncated too. -/
def get_shufflenetv2_cfg (width_scale : ℚ) : FactoryCfg :=
  let init_block_channels : ℤ := 24
  let final_block_channels : ℤ := 1024
  let layers : List ℕ := [4, 8, 4]
  let channels_per_layers : List ℤ := [116, 232, 464]
  let channels := List.zipWith (fun c l => List.replicate l c)
    channels_per_layers layers
  if width_scale ≠ 1 then
    { channels :=
        channels.map (List.map fun c : ℤ => pyint ((c : ℚ) * width_scale))
      init_block_channels := init_block_channels
      final_block_channels :=
        if (3 : ℚ) / 2 < width_scale then
          pyint ((final_block_channels : ℚ) * width_scale)
        else final_block_channels }
  else
    { channels := channels
      init_block_channels := init_block_channels
      final_block_channels := final_block_channels }

/-- The network instance `get_shufflenetv2` constructs (before any
pretrained-weight handling), given a weight supply.  The conversion of the
Python channel integers to naturals is exact on the domain where
construction succeeds (every constructed dimension is positive there); the
configurations on which `ShuffleNetV2.__init__` raises are rejected by
`factoryConstructOkB` below, on the raw integers, before this conversion
is consulted. -/
def factoryNet (width_scale : ℚ) (use_se use_residual : Bool)
    (in_chs classes : ℕ) (Wt : NetW) : ShuffleNetV2 :=
  let cfg := get_shufflenetv2_cfg width_scale
  mkShuffleNetV2 (cfg.channels.map (List.map Int.toNat))
    cfg.init_block_channels.toNat cfg.final_block_channels.toNat
    use_se use_residual in_chs classes Wt

/-- Whether a unit with the given Python `out_channels` value can be
constructed, as far as that value alone decides it: `mid_channels` is the
Python floor division `out_channels // 2` (`Int` `/` is Euclidean division,
which agrees with Python floor division for the positive divisor 2).  The
1x1 convolutions and batch normalizations of `mid_channels` size raise on a
negative dimension when their parameter arrays are allocated, the depthwise
3x3 convolution (`groups = mid_channels`) raises on a zero group count, and
the `ChannelShuffle` constructor asserts `mid_channels % 2 == 0` (Euclidean
`%` agrees with Python `%` for the positive modulus 2). -/
def chanConstructOkZ (c : ℤ) : Bool :=
  decide (0 < c / 2) && (c / 2 % 2 == 0)

/-- Whether constructing one `ShuffleUnit` succeeds, on the raw Python
integers of the factory configuration: the `out_channels`-derived sizes
must be constructible, and the downsample branch additionally allocates
`in_channels`-sized parameters (`dw_conv4` with `groups = in_channels`),
which require a positive `in_channels`. -/
def unitConstructOkZ (inC c : ℤ) (down : Bool) : Bool :=
  decide (0 < c / 2) && (!down || decide (0 < inC)) && (c / 2 % 2 == 0)

/-- Construction of the units of one stage, mirroring the constructor loop:
unit `j` has `downsample = (j == 0)` and consumes the running channel
count. -/
def unitsConstructOkZ : ℕ → ℤ → List ℤ → Bool
  | _, _, [] => true
  | j, inC, c :: rest =>
    unitConstructOkZ inC c (j == 0) && unitsConstructOkZ (j + 1) c rest

/-- Construction of all stages, threading the running channel count. -/
def stagesConstructOkZ : ℤ → List (List ℤ) → Bool
  | _, [] => true
  | inC, cs :: rest =>
    unitsConstructOkZ 0 inC cs &&
      stagesConstructOkZ (cs.foldl (fun _ c => c) inC) rest

/-- Whether `ShuffleNetV2.__init__` completes without raising for a given
width scale, evaluated on the raw Python integers of the configuration.
The init block (fixed 24 channels), the final 1x1 block (its input is the
running channel count, positive whenever every unit was constructible, and
`final_block_channels` is 1024 or a scaled value at `width_scale > 1.5`,
positive either way) and the classifier head never fail, so construction
succeeds iff every unit does. -/
def factoryConstructOkB (width_scale : ℚ) : Bool :=
  stagesConstructOkZ (get_shufflenetv2_cfg width_scale).init_block_channels
    (get_shufflenetv2_cfg width_scale).channels

/-- Result of a `get_shufflenetv2` call.  `constructionError` is any error
raised while `ShuffleNetV2.__init__` builds the links (a negative parameter
dimension, a zero depthwise group count, or the `ChannelShuffle` assert),
`valueError` the missing-model-name check; `ok net loaded` carries the
store key that was accessed (`none` when no pretrained weights were
requested). -/
inductive FactoryOutcome where
  | constructionError : FactoryOutcome
  | valueError : FactoryOutcome
  | ok : ShuffleNetV2 → Option String → FactoryOutcome

/-- Whether an outcome is an error. -/
def FactoryOutcome.isError : FactoryOutcome → Bool
  | .ok _ _ => false
  | _ => true

/-- Whether the external weight store was accessed. -/
def FactoryOutcome.storeAccessed : FactoryOutcome → Bool
  | .ok _ (some _) => true
  | _ => false

/-- `get_shufflenetv2`: construct the network (any link-allocation error or
`ChannelShuffle` assert fires here), then, only if `pretrained` is
requested, validate `model_name` (`None` or empty is a `ValueError`) before
touching the weight store. -/
def get_shufflenetv2 (width_scale : ℚ) (model_name : Option String)
    (pretrained : Bool) (use_se use_residual : Bool) (in_chs classes : ℕ)
    (Wt : NetW) : FactoryOutcome :=
  if ¬ factoryConstructOkB width_scale then .constructionError
  else
    let net := factoryNet width_scale use_se use_residual in_chs classes Wt
    if pretrained then
      match model_name with
      | none => .valueError
      | some s => if s = "" then .valueError else .ok net (some s)
    else .ok net none

/-- Parameter count of a `nobias` grouped convolution: the weight has shape
`(outC, inC / g, k, k)`. -/
def convParamCount (inC outC k g : ℕ) : ℕ := outC * (inC / g) * (k * k)

/-- Parameter count of a batch normalization: learned gamma and beta. -/
def bnParamCount (c : ℕ) : ℕ := 2 * c

/-- Parameter count of a `ShuffleConv` block. -/
def ShuffleConv.paramCount (c : ShuffleConv) : ℕ :=
  convParamCount c.in_channels c.out_channels c.ksize 1 +
    bnParamCount c.out_channels

/-- Parameter count of one `ShuffleUnit`, following the links constructed in
`ShuffleUnit.__init__` (the downsample branch links exist only when
`downsample`, the SE block only when `use_se`; `seP` gives the parameter
count of an SE block at a given channel count). -/
def ShuffleUnit.paramCount (seP : ℕ → ℕ) (u : ShuffleUnit) : ℕ :=
  let mid := u.mid_channels
  convParamCount (if u.downsample then u.in_channels else mid) mid 1 1 +
    bnParamCount mid +
    convParamCount mid mid 3 mid + bnParamCount mid +
    convParamCount mid mid 1 1 + bnParamCount mid +
    (if u.use_se then seP mid else 0) +
    (if u.downsample then
        convParamCount u.in_channels u.in_channels 3 u.in_channels +
          bnParamCount u.in_channels +
          convParamCount u.in_channels mid 1 1 + bnParamCount mid
      else 0)

/-- Total learnable parameter count of the network
(`net.count_params()`). -/
def ShuffleNetV2.paramCount (seP : ℕ → ℕ) (net : ShuffleNetV2) : ℕ :=
  net.init_block.conv.paramCount +
    (net.stages.map fun s => (s.map (ShuffleUnit.paramCount seP)).sum).sum +
    net.final_block.paramCount +
    (net.classes * net.final_channels + net.classes)

/-- The canonical per-index channel-shuffle permutation: channel
`i = g*(C/G) + o` is sent to index `o*G + g`. -/
def shufflePerm (C G i : ℕ) : ℕ := (i % (C / G)) * G + i / (C / G)

/-- An all-zero weight family for one unit (used for concrete instances). -/
def zeroUW : UnitW :=
  ⟨fun _ _ _ _ => 0, ⟨fun _ => 0, fun _ => 0⟩,
   fun _ _ _ _ => 0, ⟨fun _ => 0, fun _ => 0⟩,
   fun _ _ _ _ => 0, ⟨fun _ => 0, fun _ => 0⟩,
   fun _ _ _ _ => 0, ⟨fun _ => 0, fun _ => 0⟩,
   fun _ _ _ _ => 0, ⟨fun _ => 0, fun _ => 0⟩,
   fun _ _ => 0⟩

/-- An all-zero weight supply for a whole network. -/
def zeroW : NetW :=
  { init_w := fun _ _ _ _ => 0
    init_bn := ⟨fun _ => 0, fun _ => 0⟩
    unit_w := fun _ _ => zeroUW
    final_w := fun _ _ _ _ => 0
    final_bn := ⟨fun _ => 0, fun _ => 0⟩
    fc := ⟨fun _ _ => 0, fun _ => 0⟩ }

/-- A concrete downsampling unit (2 in-channels, 4 out-channels). -/
def u0 : ShuffleUnit := ⟨2, 4, true, false, false, zeroUW⟩

/-- A concrete input for `u0`: 1 batch, 2 channels, 3x3 spatial. -/
def x0 : Tensor := ⟨1, 2, 3, 3, fun _ c _ _ => c⟩

/-- A concrete non-downsampling residual unit (4 channels). -/
def u1 : ShuffleUnit := ⟨4, 4, false, false, true, zeroUW⟩

/-- A concrete non-downsampling unit with `in_channels` different from
`out_channels`. -/
def u2 : ShuffleUnit := ⟨6, 4, false, false, false, zeroUW⟩

/-- A concrete input with 4 channels whose value equals its channel index. -/
def x1 : Tensor := ⟨1, 4, 1, 1, fun _ c _ _ => c⟩

/-- A concrete input with 6 channels. -/
def x6 : Tensor := ⟨1, 6, 1, 1, fun _ _ _ _ => 0⟩

/-- A concrete 1x3x224x224 input (all zeros). -/
def xin224 : Tensor := ⟨1, 3, 224, 224, fun _ _ _ _ => 0⟩

/-- A concrete 1x3x448x448 input (all zeros). -/
def xin448 : Tensor := ⟨1, 3, 448, 448, fun _ _ _ _ => 0⟩

/-- Spatial size of the pre-pooling feature map produced from an input of
the given spatial size: init 3x3 stride-2 pad-1 convolution, 3x3 stride-2
max pool, then one stride-2 unit per stage. -/
def featSize (h : ℕ) : ℕ :=
  let a := convOutSize h 3 2 1
  let b := (a - 3) / 2 + 1
  let c := (b - 1) / 2 + 1
  let d := (c - 1) / 2 + 1
  (d - 1) / 2 + 1

lemma pyint_eq (q : ℚ) (n : ℤ) (h0 : 0 ≤ n) (h1 : (n : ℚ) ≤ q)
    (h2 : q < n + 1) : pyint q = n := by
  have hq : 0 ≤ q := le_trans (by exact_mod_cast h0) h1
  rw [pyint, if_pos hq, Int.floor_eq_iff]
  exact ⟨h1, h2⟩

lemma conv2d_some (inC outC k s p g : ℕ) (w : ℕ → ℕ → ℕ → ℕ → ℚ) (x : Tensor)
    (h1 : x.channels = inC) (h2 : k ≤ x.height + 2 * p)
    (h3 : k ≤ x.width + 2 * p) :
    ∃ y, conv2d inC outC k s p g w x = some y ∧ y.batch = x.batch ∧
      y.channels = outC ∧ y.height = convOutSize x.height k s p ∧
      y.width = convOutSize x.width k s p := by
  rw [conv2d, if_pos ⟨h1, h2, h3⟩]
  exact ⟨_, rfl, rfl, rfl, rfl, rfl⟩

lemma conv2d_eq_some {inC outC k s p g : ℕ} {w : ℕ → ℕ → ℕ → ℕ → ℚ}
    {x y : Tensor} (h : conv2d inC outC k s p g w x = some y) :
    x.channels = inC ∧ k ≤ x.height + 2 * p ∧ k ≤ x.width + 2 * p ∧
      y.batch = x.batch ∧ y.channels = outC ∧
      y.height = convOutSize x.height k s p ∧
      y.width = convOutSize x.width k s p := by
  rw [conv2d, ite_some_none_eq_some] at h
  obtain ⟨⟨h1, h2, h3⟩, rfl⟩ := h
  exact ⟨h1, h2, h3, rfl, rfl, rfl, rfl⟩

lemma batchNorm_some (size : ℕ) (p : BNP) (x : Tensor)
    (h : x.channels = size) :
    ∃ y, batchNorm size p x = some y ∧ y.batch = x.batch ∧
      y.channels = x.channels ∧ y.height = x.height ∧ y.width = x.width := by
  rw [batchNorm, if_pos h]
  exact ⟨_, rfl, rfl, rfl, rfl, rfl⟩

lemma batchNorm_eq_some {size : ℕ} {p : BNP} {x y : Tensor}
    (h : batchNorm size p x = some y) :
    x.channels = size ∧ y.batch = x.batch ∧ y.channels = x.channels ∧
      y.height = x.height ∧ y.width = x.width := by
  rw [batchNorm, ite_some_none_eq_some] at h
  obtain ⟨h1, rfl⟩ := h
  exact ⟨h1, rfl, rfl, rfl, rfl⟩

lemma relu_shape (x : Tensor) :
    (relu x).batch = x.batch ∧ (relu x).channels = x.channels ∧
      (relu x).height = x.height ∧ (relu x).width = x.width :=
  ⟨rfl, rfl, rfl, rfl⟩

lemma seBlock_shape (gate : List ℚ → ℕ → ℚ) (x : Tensor) :
    (seBlock gate x).batch = x.batch ∧ (seBlock gate x).channels = x.channels ∧
      (seBlock gate x).height = x.height ∧ (seBlock gate x).width = x.width :=
  ⟨rfl, rfl, rfl, rfl⟩

lemma channel_shuffle_shape (x : Tensor) (g : ℕ) :
    (channel_shuffle x g).batch = x.batch ∧
      (channel_shuffle x g).channels = x.channels ∧
      (channel_shuffle x g).height = x.height ∧
      (channel_shuffle x g).width = x.width :=
  ⟨rfl, rfl, rfl, rfl⟩

lemma split_axis2_pos {x : Tensor} (h : x.channels % 2 = 0) :
    split_axis2 x = some (fstHalf x, sndHalf x) := by
  rw [split_axis2, if_pos h]

lemma split_axis2_eq_some {x : Tensor} {pr : Tensor × Tensor}
    (h : split_axis2 x = some pr) :
    x.channels % 2 = 0 ∧ pr = (fstHalf x, sndHalf x) := by
  rw [split_axis2, ite_some_none_eq_some] at h
  exact ⟨h.1, h.2.symm⟩

lemma concat2_pos {a b : Tensor} (h1 : a.batch = b.batch)
    (h2 : a.height = b.height) (h3 : a.width = b.width) :
    concat2 a b =
      some { a with
               channels := a.channels + b.channels
               data := fun n c i j =>
                 if c < a.channels then a.data n c i j
                 else b.data n (c - a.channels) i j } := by
  rw [concat2, if_pos ⟨h1, h2, h3⟩]

lemma concat2_eq_some {a b y : Tensor} (h : concat2 a b = some y) :
    a.batch = b.batch ∧ a.height = b.height ∧ a.width = b.width ∧
      y.batch = a.batch ∧ y.channels = a.channels + b.channels ∧
      y.height = a.height ∧ y.width = a.width := by
  rw [concat2, ite_some_none_eq_some] at h
  obtain ⟨⟨h1, h2, h3⟩, rfl⟩ := h
  exact ⟨h1, h2, h3, rfl, rfl, rfl, rfl⟩

lemma addT_pos {a b : Tensor} (h1 : a.batch = b.batch)
    (h2 : a.channels = b.channels) (h3 : a.height = b.height)
    (h4 : a.width = b.width) :
    addT a b =
      some { a with data := fun n c i j => a.data n c i j + b.data n c i j } := by
  rw [addT, if_pos ⟨h1, h2, h3, h4⟩]

lemma addT_eq_some {a b y : Tensor} (h : addT a b = some y) :
    a.batch = b.batch ∧ a.channels = b.channels ∧ a.height = b.height ∧
      a.width = b.width ∧ y.batch = a.batch ∧ y.channels = a.channels ∧
      y.height = a.height ∧ y.width = a.width := by
  rw [addT, ite_some_none_eq_some] at h
  obtain ⟨⟨h1, h2, h3, h4⟩, rfl⟩ := h
  exact ⟨h1, h2, h3, h4, rfl, rfl, rfl, rfl⟩

lemma max_pooling_2d_some (k s : ℕ) (x : Tensor) (h1 : k ≤ x.height)
    (h2 : k ≤ x.width) :
    ∃ y, max_pooling_2d k s x = some y ∧ y.batch = x.batch ∧
      y.channels = x.channels ∧ y.height = (x.height - k) / s + 1 ∧
      y.width = (x.width - k) / s + 1 := by
  rw [max_pooling_2d, if_pos ⟨h1, h2⟩]
  exact ⟨_, rfl, rfl, rfl, rfl, rfl⟩

lemma average_pooling_2d_some (k s : ℕ) (x : Tensor) (h1 : k ≤ x.height)
    (h2 : k ≤ x.width) :
    ∃ y, average_pooling_2d k s x = some y ∧ y.batch = x.batch ∧
      y.channels = x.channels ∧ y.height = (x.height - k) / s + 1 ∧
      y.width = (x.width - k) / s + 1 := by
  rw [average_pooling_2d, if_pos ⟨h1, h2⟩]
  exact ⟨_, rfl, rfl, rfl, rfl, rfl⟩

lemma reshapeFlatten_some (cols : ℕ) (x : Tensor)
    (h : (x.batch * x.channels * x.height * x.width) % cols = 0) :
    ∃ m, reshapeFlatten cols x = some m ∧
      m.rows = x.batch * x.channels * x.height * x.width / cols ∧
      m.cols = cols := by
  rw [reshapeFlatten, if_pos h]
  exact ⟨_, rfl, rfl, rfl⟩

lemma linear_some (inSize outSize : ℕ) (p : LinearP) (m : Mat2)
    (h : m.cols = inSize) :
    ∃ r, linear inSize outSize p m = some r ∧ r.rows = m.rows ∧
      r.cols = outSize := by
  rw [linear, if_pos h]
  exact ⟨_, rfl, rfl, rfl⟩

lemma convOutSize_k1 {h : ℕ} (hh : 1 ≤ h) : convOutSize h 1 1 0 = h := by
  unfold convOutSize; omega

lemma convOutSize_k3s1 {h : ℕ} (hh : 1 ≤ h) : convOutSize h 3 1 1 = h := by
  unfold convOutSize; omega

lemma convOutSize_k3s2 {h : ℕ} : convOutSize h 3 2 1 = (h - 1) / 2 + 1 := by
  unfold convOutSize; omega

lemma transform_some (u : ShuffleUnit) (x2 : Tensor)
    (hC : x2.channels = if u.downsample then u.in_channels else u.mid_channels)
    (hH : 1 ≤ x2.height) (hW : 1 ≤ x2.width) :
    ∃ z, u.transform x2 = some z ∧ z.batch = x2.batch ∧
      z.channels = u.mid_channels ∧
      z.height = (if u.downsample then (x2.height - 1) / 2 + 1
        else x2.height) ∧
      z.width = (if u.downsample then (x2.width - 1) / 2 + 1
        else x2.width) := by
  obtain ⟨a, ea, ab, ac, ah, aw⟩ :=
    conv2d_some _ u.mid_channels 1 1 0 1 u.w.compress_w x2 hC (by omega)
      (by omega)
  rw [convOutSize_k1 hH] at ah
  rw [convOutSize_k1 hW] at aw
  obtain ⟨b, eb, bb, bc, bh, bw⟩ :=
    batchNorm_some u.mid_channels u.w.compress_bn1 a ac
  have rbc : (relu b).channels = u.mid_channels := by
    rw [relu]; rw [bc, ac]
  have rbh : (relu b).height = x2.height := by
    rw [relu]; rw [bh, ah]
  have rbw : (relu b).width = x2.width := by
    rw [relu]; rw [bw, aw]
  obtain ⟨c, ec, cb, cc, ch, cw⟩ :=
    conv2d_some u.mid_channels u.mid_channels 3
      (if u.downsample then 2 else 1) 1 u.mid_channels u.w.dw2_w (relu b) rbc
      (by omega) (by omega)
  rw [rbh] at ch
  rw [rbw] at cw
  have chh : c.height = (if u.downsample then (x2.height - 1) / 2 + 1
      else x2.height) := by
    rw [ch]; cases u.downsample <;>
      simp [convOutSize_k3s1 hH, convOutSize_k3s2]
  have cww : c.width = (if u.downsample then (x2.width - 1) / 2 + 1
      else x2.width) := by
    rw [cw]; cases u.downsample <;>
      simp [convOutSize_k3s1 hW, convOutSize_k3s2]
  obtain ⟨d, ed, db, dc, dh, dw⟩ :=
    batchNorm_some u.mid_channels u.w.dw_bn2 c cc
  have dh1 : 1 ≤ d.height := by
    rw [dh, chh]; cases u.downsample <;> simp <;> omega
  have dw1 : 1 ≤ d.width := by
    rw [dw, cww]; cases u.downsample <;> simp <;> omega
  obtain ⟨e, ee, eb2, ec2, eh, ew⟩ :=
    conv2d_some u.mid_channels u.mid_channels 1 1 0 1 u.w.expand3_w d
      (by rw [dc, cc]) (by omega) (by omega)
  rw [convOutSize_k1 dh1] at eh
  rw [convOutSize_k1 dw1] at ew
  obtain ⟨f, ef, fb, fc, fh, fw⟩ :=
    batchNorm_some u.mid_channels u.w.expand_bn3 e ec2
  refine ⟨if u.use_se then seBlock u.w.se_gate (relu f) else relu f, ?_, ?_,
    ?_, ?_, ?_⟩
  · simp only [ShuffleUnit.transform, ea, Option.some_bind, eb, ec, ed, ee,
      ef, Option.map_some']
  · cases u.use_se <;>
      simp [seBlock, relu, fb, eb2, db, cb, bb, ab]
  · cases u.use_se <;> simp [seBlock, relu, fc, ec2, dc, cc]
  · cases u.use_se <;> simp [seBlock, relu, fh, eh, dh, chh]
  · cases u.use_se <;> simp [seBlock, relu, fw, ew, dw, cww]

lemma transform_eq_some {u : ShuffleUnit} {x2 z : Tensor}
    (h : u.transform x2 = some z) :
    x2.channels = (if u.downsample then u.in_channels else u.mid_channels) ∧
      1 ≤ x2.height ∧ 1 ≤ x2.width ∧ z.batch = x2.batch ∧
      z.channels = u.mid_channels ∧
      z.height = (if u.downsample then (x2.height - 1) / 2 + 1
        else x2.height) ∧
      z.width = (if u.downsample then (x2.width - 1) / 2 + 1
        else x2.width) := by
  simp only [ShuffleUnit.transform, Option.bind_eq_some,
    Option.map_eq_some'] at h
  obtain ⟨a, ea, b, eb, c, ec, d, ed, e, ee, f, ef, hz⟩ := h
  obtain ⟨hC, hH0, hW0, ab, ac, ah, aw⟩ := conv2d_eq_some ea
  have hH : 1 ≤ x2.height := by omega
  have hW : 1 ≤ x2.width := by omega
  rw [convOutSize_k1 hH] at ah
  rw [convOutSize_k1 hW] at aw
  obtain ⟨_, bb, bc, bh, bw⟩ := batchNorm_eq_some eb
  obtain ⟨_, _, _, cb, cc, ch, cw⟩ := conv2d_eq_some ec
  obtain ⟨_, db, dc, dh, dw⟩ := batchNorm_eq_some ed
  obtain ⟨_, _, _, eb2, ec2, eh, ew⟩ := conv2d_eq_some ee
  obtain ⟨_, fb, fc, fh, fw⟩ := batchNorm_eq_some ef
  have hrb : (relu b).height = x2.height := by rw [relu]; rw [bh, ah]
  have hrw : (relu b).width = x2.width := by rw [relu]; rw [bw, aw]
  have chh : c.height = (if u.downsample then (x2.height - 1) / 2 + 1
      else x2.height) := by
    rw [ch, hrb]; cases u.downsample <;>
      simp [convOutSize_k3s1 hH, convOutSize_k3s2]
  have cww : c.width = (if u.downsample then (x2.width - 1) / 2 + 1
      else x2.width) := by
    rw [cw, hrw]; cases u.downsample <;>
      simp [convOutSize_k3s1 hW, convOutSize_k3s2]
  have dh1 : 1 ≤ d.height := by
    rw [dh, chh]; cases u.downsample <;> simp <;> omega
  have dw1 : 1 ≤ d.width := by
    rw [dw, cww]; cases u.downsample <;> simp <;> omega
  have ehh : e.height = d.height := by rw [eh, convOutSize_k1 dh1]
  have eww : e.width = d.width := by rw [ew, convOutSize_k1 dw1]
  have hzb : z.batch = x2.batch := by
    rw [← hz]; cases u.use_se <;>
      simp [seBlock, relu, fb, eb2, db, cb, bb, ab]
  have hzc : z.channels = u.mid_channels := by
    rw [← hz]; cases u.use_se <;> simp [seBlock, relu, fc, ec2]
  have hzh : z.height = (if u.downsample then (x2.height - 1) / 2 + 1
      else x2.height) := by
    rw [← hz]; cases u.use_se <;> simp [seBlock, relu, fh, ehh, dh, chh]
  have hzw : z.width = (if u.downsample then (x2.width - 1) / 2 + 1
      else x2.width) := by
    rw [← hz]; cases u.use_se <;> simp [seBlock, relu, fw, eww, dw, cww]
  exact ⟨hC, hH, hW, hzb, hzc, hzh, hzw⟩

lemma preShuffle_some_down (u : ShuffleUnit) (x : Tensor)
    (hd : u.downsample = true) (hC : x.channels = u.in_channels)
    (hH : 1 ≤ x.height) (hW : 1 ≤ x.width) :
    ∃ t, u.preShuffle x = some t ∧ t.batch = x.batch ∧
      t.channels = u.mid_channels + u.mid_channels ∧
      t.height = (x.height - 1) / 2 + 1 ∧ t.width = (x.width - 1) / 2 + 1 := by
  obtain ⟨a, ea, ab, ac, ah, aw⟩ :=
    conv2d_some u.in_channels u.in_channels 3 2 1 u.in_channels u.w.dw4_w x
      hC (by omega) (by omega)
  rw [convOutSize_k3s2] at ah
  rw [convOutSize_k3s2] at aw
  obtain ⟨b, eb, bb, bc, bh, bw⟩ :=
    batchNorm_some u.in_channels u.w.dw_bn4 a ac
  have bh1 : 1 ≤ b.height := by rw [bh, ah]; omega
  have bw1 : 1 ≤ b.width := by rw [bw, aw]; omega
  obtain ⟨c, ec, cb, cc, ch, cw⟩ :=
    conv2d_some u.in_channels u.mid_channels 1 1 0 1 u.w.expand5_w b
      (by rw [bc, ac]) (by omega) (by omega)
  rw [convOutSize_k1 bh1, bh, ah] at ch
  rw [convOutSize_k1 bw1, bw, aw] at cw
  obtain ⟨d, ed, db, dc, dh, dw⟩ :=
    batchNorm_some u.mid_channels u.w.expand_bn5 c cc
  obtain ⟨z, ez, zb, zc, zh, zw⟩ := transform_some u x (by rw [hd, if_pos]; exact hC; trivial)
    hH hW
  rw [hd] at zh zw
  simp only [if_true] at zh zw
  have hcat := concat2_pos (a := relu d) (b := z)
    (by simp [relu, db, cb, bb, ab, zb])
    (by simp [relu, dh, ch, zh])
    (by simp [relu, dw, cw, zw])
  have e1 : u.preShuffle x = concat2 (relu d) z := by
    simp only [ShuffleUnit.preShuffle, hd, if_true, Bool.not_true,
      Bool.and_false, ea, Option.some_bind, eb, ec, ed, Option.map_some',
      ez, Bool.false_eq_true, if_false]
  rw [hcat] at e1
  obtain ⟨jb, jh, jw, tb, tc, th, tw⟩ := concat2_eq_some hcat
  exact ⟨_, e1,
    by rw [tb]; simp [relu, db, cb, bb, ab],
    by rw [tc]; simp [relu, dc, cc, zc],
    by rw [th]; simp [relu, dh, ch],
    by rw [tw]; simp [relu, dw, cw]⟩

lemma preShuffle_some_nondown (u : ShuffleUnit) (x : Tensor)
    (hd : u.downsample = false) (hC : x.channels = u.out_channels)
    (h2 : 2 ∣ u.out_channels) (hH : 1 ≤ x.height) (hW : 1 ≤ x.width) :
    ∃ t, u.preShuffle x = some t ∧ t.batch = x.batch ∧
      t.channels = u.mid_channels + u.mid_channels ∧
      t.height = x.height ∧ t.width = x.width := by
  have hsplit : split_axis2 x = some (fstHalf x, sndHalf x) :=
    split_axis2_pos (by omega)
  have hsc : (sndHalf x).channels = u.mid_channels := by
    rw [sndHalf]; simp only [ShuffleUnit.mid_channels]; rw [hC]
  obtain ⟨z, ez, zb, zc, zh, zw⟩ := transform_some u (sndHalf x)
    (by rw [hd]; simp only [Bool.false_eq_true, if_false]; exact hsc)
    (by rw [sndHalf]; exact hH) (by rw [sndHalf]; exact hW)
  rw [hd] at zh zw
  simp only [Bool.false_eq_true, if_false] at zh zw
  rw [show (sndHalf x).height = x.height from rfl] at zh
  rw [show (sndHalf x).width = x.width from rfl] at zw
  have zb2 : z.batch = x.batch := by
    rw [zb]; rfl
  cases hur : u.use_residual with
  | true =>
    have hadd := addT_pos (a := z) (b := sndHalf x)
      (by rw [zb2]; rfl) (by rw [zc, hsc]) (by rw [zh]; rfl)
      (by rw [zw]; rfl)
    have hcat := concat2_pos
      (a := fstHalf x)
      (b := { z with data := fun n c i j =>
                z.data n c i j + (sndHalf x).data n c i j })
      (by rw [fstHalf]; simp [zb2]) (by rw [fstHalf]; simp [zh])
      (by rw [fstHalf]; simp [zw])
    have e1 : u.preShuffle x =
        concat2 (fstHalf x)
          { z with data := fun n c i j =>
              z.data n c i j + (sndHalf x).data n c i j } := by
      simp only [ShuffleUnit.preShuffle, hd, Bool.false_eq_true, if_false,
        hsplit, Option.some_bind, ez, hur, Bool.not_false, Bool.and_true,
        if_true, hadd]
    rw [hcat] at e1
    obtain ⟨jb, jh, jw, tb, tc, th, tw⟩ := concat2_eq_some hcat
    refine ⟨_, e1, ?_, ?_, ?_, ?_⟩
    · rw [tb]; rfl
    · rw [tc]
      have : (fstHalf x).channels = u.mid_channels := by
        rw [fstHalf, ShuffleUnit.mid_channels]; rw [hC]
      rw [this]; simp [zc]
    · rw [th]; rfl
    · rw [tw]; rfl
  | false =>
    have hcat := concat2_pos (a := fstHalf x) (b := z)
      (by rw [fstHalf]; simp [zb2]) (by rw [fstHalf]; simp [zh])
      (by rw [fstHalf]; simp [zw])
    have e1 : u.preShuffle x = concat2 (fstHalf x) z := by
      simp only [ShuffleUnit.preShuffle, hd, Bool.false_eq_true, if_false,
        hsplit, Option.some_bind, ez, hur, Bool.and_eq_true, false_and,
        Bool.false_and, Option.some_bind]
    rw [hcat] at e1
    obtain ⟨jb, jh, jw, tb, tc, th, tw⟩ := concat2_eq_some hcat
    refine ⟨_, e1, ?_, ?_, ?_, ?_⟩
    · rw [tb]; rfl
    · rw [tc]
      have : (fstHalf x).channels = u.mid_channels := by
        rw [fstHalf, ShuffleUnit.mid_channels]; rw [hC]
      rw [this, zc]
    · rw [th]; rfl
    · rw [tw]; rfl

lemma preShuffle_eq_some_down {u : ShuffleUnit} {x t : Tensor}
    (hd : u.downsample = true) (h : u.preShuffle x = some t) :
    x.channels = u.in_channels ∧ 1 ≤ x.height ∧ 1 ≤ x.width ∧
      t.batch = x.batch ∧ t.channels = u.mid_channels + u.mid_channels ∧
      t.height = (x.height - 1) / 2 + 1 ∧ t.width = (x.width - 1) / 2 + 1 := by
  simp only [ShuffleUnit.preShuffle, hd, if_true, Bool.not_true,
    Bool.and_false, Bool.false_eq_true, if_false, Option.bind_eq_some,
    Option.map_eq_some'] at h
  obtain ⟨p, ⟨a, ea, b, eb, c, ec, d, ed, hp⟩, z, ez, z2, hz2, hcat⟩ := h
  obtain rfl : z = z2 := Option.some.inj hz2
  obtain ⟨hC, hH0, hW0, ab, ac, ah, aw⟩ := conv2d_eq_some ea
  have hH : 1 ≤ x.height := by omega
  have hW : 1 ≤ x.width := by omega
  rw [convOutSize_k3s2] at ah
  rw [convOutSize_k3s2] at aw
  obtain ⟨_, bb, bc, bh, bw⟩ := batchNorm_eq_some eb
  obtain ⟨_, _, _, cb, cc, ch, cw⟩ := conv2d_eq_some ec
  have bh1 : 1 ≤ b.height := by rw [bh, ah]; omega
  have bw1 : 1 ≤ b.width := by rw [bw, aw]; omega
  rw [convOutSize_k1 bh1] at ch
  rw [convOutSize_k1 bw1] at cw
  obtain ⟨_, db, dc, dh, dw⟩ := batchNorm_eq_some ed
  subst hp
  obtain ⟨hz1, _, _, zb, zc, zh, zw⟩ := transform_eq_some ez
  rw [hd] at zh zw
  simp only [if_true] at zh zw
  obtain ⟨jb, jh, jw, tb, tc, th, tw⟩ := concat2_eq_some hcat
  refine ⟨hC, hH, hW, ?_, ?_, ?_, ?_⟩
  · rw [tb]; simp [relu, db, cb, bb, ab]
  · rw [tc]; simp [relu, dc, cc, zc]
  · rw [th]; simp [relu, dh, ch, bh, ah]
  · rw [tw]; simp [relu, dw, cw, bw, aw]

lemma preShuffle_eq_some_nondown {u : ShuffleUnit} {x t : Tensor}
    (hd : u.downsample = false) (h : u.preShuffle x = some t) :
    x.channels % 2 = 0 ∧ x.channels / 2 = u.mid_channels ∧
      1 ≤ x.height ∧ 1 ≤ x.width ∧ t.batch = x.batch ∧
      t.channels = u.mid_channels + u.mid_channels ∧
      t.height = x.height ∧ t.width = x.width := by
  simp only [ShuffleUnit.preShuffle, hd, Bool.false_eq_true, if_false,
    Bool.not_false, Bool.and_true, Option.bind_eq_some] at h
  obtain ⟨p, hsplit, z, ez, y2, hres, hcat⟩ := h
  obtain ⟨heven, hp⟩ := split_axis2_eq_some hsplit
  subst hp
  obtain ⟨hz1, hzh1, hzw1, zb, zc, zh, zw⟩ := transform_eq_some ez
  rw [hd] at hz1 zh zw
  simp only [Bool.false_eq_true, if_false] at hz1 zh zw
  have hsc : x.channels / 2 = u.mid_channels := hz1
  have hres2 : (if u.use_residual = true then addT z (sndHalf x)
      else some z) = some y2 := hres
  have hy2 : y2.batch = z.batch ∧ y2.channels = z.channels ∧
      y2.height = z.height ∧ y2.width = z.width := by
    cases hur : u.use_residual with
    | false =>
      rw [hur] at hres2
      simp only [Bool.false_eq_true, if_false] at hres2
      obtain rfl : z = y2 := Option.some.inj hres2
      exact ⟨rfl, rfl, rfl, rfl⟩
    | true =>
      rw [hur] at hres2
      simp only [if_true] at hres2
      obtain ⟨_, _, _, _, w1, w2, w3, w4⟩ := addT_eq_some hres2
      exact ⟨w1, w2, w3, w4⟩
  obtain ⟨jb, jh, jw, tb, tc, th, tw⟩ := concat2_eq_some hcat
  refine ⟨heven, hsc, hzh1, hzw1, ?_, ?_, ?_, ?_⟩
  · rw [tb]; rfl
  · rw [tc, hy2.2.1, zc]; simp [fstHalf, hsc]
  · rw [th]; rfl
  · rw [tw]; rfl

lemma mid_twice {u : ShuffleUnit} (h2 : 2 ∣ u.out_channels) :
    u.mid_channels + u.mid_channels = u.out_channels := by
  rw [ShuffleUnit.mid_channels]; omega

lemma forward_some_down (u : ShuffleUnit) (x : Tensor)
    (hd : u.downsample = true) (h2 : 2 ∣ u.out_channels)
    (hC : x.channels = u.in_channels) (hH : 1 ≤ x.height)
    (hW : 1 ≤ x.width) :
    ∃ y, u.forward x = some y ∧ y.batch = x.batch ∧
      y.channels = u.out_channels ∧ y.height = (x.height - 1) / 2 + 1 ∧
      y.width = (x.width - 1) / 2 + 1 := by
  obtain ⟨t, ht, tb, tc, th, tw⟩ := preShuffle_some_down u x hd hC hH hW
  refine ⟨u.c_shuffle.run t, ?_, ?_, ?_, ?_, ?_⟩
  · rw [ShuffleUnit.forward, ht, Option.map_some']
  · simpa [ChannelShuffle.run, channel_shuffle] using tb
  · simp only [ChannelShuffle.run, channel_shuffle]
    rw [tc] at *; exact mid_twice h2
  · simpa [ChannelShuffle.run, channel_shuffle] using th
  · simpa [ChannelShuffle.run, channel_shuffle] using tw

lemma forward_some_nondown (u : ShuffleUnit) (x : Tensor)
    (hd : u.downsample = false) (h2 : 2 ∣ u.out_channels)
    (hC : x.channels = u.out_channels) (hH : 1 ≤ x.height)
    (hW : 1 ≤ x.width) :
    ∃ y, u.forward x = some y ∧ y.batch = x.batch ∧
      y.channels = u.out_channels ∧ y.height = x.height ∧
      y.width = x.width := by
  obtain ⟨t, ht, tb, tc, th, tw⟩ := preShuffle_some_nondown u x hd hC h2 hH hW
  refine ⟨u.c_shuffle.run t, ?_, ?_, ?_, ?_, ?_⟩
  · rw [ShuffleUnit.forward, ht, Option.map_some']
  · simpa [ChannelShuffle.run, channel_shuffle] using tb
  · simp only [ChannelShuffle.run, channel_shuffle]
    rw [tc] at *; exact mid_twice h2
  · simpa [ChannelShuffle.run, channel_shuffle] using th
  · simpa [ChannelShuffle.run, channel_shuffle] using tw

lemma forward_eq_some {u : ShuffleUnit} {x y : Tensor}
    (h : u.forward x = some y) :
    ∃ t, u.preShuffle x = some t ∧ y.batch = t.batch ∧
      y.channels = t.channels ∧ y.height = t.height ∧ y.width = t.width := by
  rw [ShuffleUnit.forward, Option.map_eq_some'] at h
  obtain ⟨t, ht, hy⟩ := h
  exact ⟨t, ht, by rw [← hy]; rfl, by rw [← hy]; rfl, by rw [← hy]; rfl,
    by rw [← hy]; rfl⟩

/-- C3: for every `ShuffleUnit` (any `downsample`/`use_se`/`use_residual`
combination) with even `out_channels` and an input with `in_channels`
channels, an output of the forward call always has exactly `out_channels`
channels, and its spatial size is halved rounded up when `downsample` and
unchanged otherwise. -/
theorem c3_unit_output_shape (u : ShuffleUnit) (x y : Tensor)
    (h2 : 2 ∣ u.out_channels) (hC : x.channels = u.in_channels)
    (h : u.forward x = some y) :
    y.channels = u.out_channels ∧
      (u.downsample = true →
        y.height = (x.height + 1) / 2 ∧ y.width = (x.width + 1) / 2) ∧
      (u.downsample = false → y.height = x.height ∧ y.width = x.width) := by
  obtain ⟨t, ht, yb, yc, yh, yw⟩ := forward_eq_some h
  cases hd : u.downsample with
  | true =>
    obtain ⟨_, hH, hW, tb, tc, th, tw⟩ := preShuffle_eq_some_down hd ht
    refine ⟨by rw [yc, tc]; exact mid_twice h2, fun _ => ?_, fun hff => ?_⟩
    · constructor
      · rw [yh, th]; omega
      · rw [yw, tw]; omega
    · exact absurd hff (by simp)
  | false =>
    obtain ⟨heven, hsc, hH, hW, tb, tc, th, tw⟩ :=
      preShuffle_eq_some_nondown hd ht
    refine ⟨by rw [yc, tc]; exact mid_twice h2, fun htt => ?_, fun _ => ?_⟩
    · exact absurd htt (by simp)
    · exact ⟨by rw [yh, th], by rw [yw, tw]⟩

/-- C10: a non-downsampling `ShuffleUnit` with even `out_channels` succeeds
on an input with its declared `in_channels` exactly when
`in_channels = out_channels`; otherwise the transform branch's first
convolution (sized for `out_channels / 2` inputs) mismatches and the
forward call fails. -/
theorem c10_nondown_requires_in_eq_out (u : ShuffleUnit) (x : Tensor)
    (hd : u.downsample = false) (h2 : 2 ∣ u.out_channels)
    (hC : x.channels = u.in_channels) (hH : 1 ≤ x.height)
    (hW : 1 ≤ x.width) :
    (u.forward x).isSome = true ↔ u.in_channels = u.out_channels := by
  constructor
  · intro hs
    obtain ⟨y, hy⟩ := Option.isSome_iff_exists.mp hs
    obtain ⟨t, ht, _, _, _, _⟩ := forward_eq_some hy
    obtain ⟨heven, hsc, _, _, _, _, _, _⟩ := preShuffle_eq_some_nondown hd ht
    rw [hC] at heven
    rw [hC, ShuffleUnit.mid_channels] at hsc
    omega
  · intro heq
    obtain ⟨y, hy, _, _, _, _⟩ := forward_some_nondown u x hd h2
      (by rw [hC, heq]) hH hW
    rw [hy]; rfl

/-- Witness for C3: the concrete downsampling unit `u0` (2 in-channels,
4 out-channels) on a 3x3 input yields 4 channels and a 2x2 feature map. -/
theorem c3_unit_output_shape_witness :
    2 ∣ u0.out_channels ∧ x0.channels = u0.in_channels ∧
      (u0.forward x0).map Tensor.channels = some 4 ∧
      (u0.forward x0).map Tensor.height = some 2 := by
  have hs : (u0.forward x0).isSome = true := by decide
  obtain ⟨y, hy⟩ := Option.isSome_iff_exists.mp hs
  have h := c3_unit_output_shape u0 x0 y (by decide) rfl hy
  refine ⟨by decide, rfl, ?_, ?_⟩
  · rw [hy, Option.map_some', h.1]; rfl
  · rw [hy, Option.map_some', (h.2.1 rfl).1]; rfl

/-- Witness for C10: the 4-to-4 non-downsampling unit succeeds while the
6-to-4 non-downsampling unit fails on its declared input. -/
theorem c10_witness :
    (u1.forward x1).isSome = true ∧ (u2.forward x6).isSome = false := by
  constructor
  · exact (c10_nondown_requires_in_eq_out u1 x1 rfl (by decide) rfl
      (by decide) (by decide)).mpr rfl
  · have h := c10_nondown_requires_in_eq_out u2 x6 rfl (by decide) rfl
      (by decide) (by decide)
    cases hs : (u2.forward x6).isSome
    · rfl
    · exact absurd (h.mp hs) (by decide)

/-- C9: the `ChannelShuffle` sub-block of every `ShuffleUnit` is constructed
with channel argument `out_channels / 2` and `groups = 2`, yet the tensor it
shuffles in the forward pass is the concatenation with `out_channels`
channels; its construction-time divisibility check therefore tests
`out_channels / 2` (and there are even `out_channels`, e.g. 6, whose units
fail the check although the shuffled tensor's channel count is even). -/
theorem c9_shuffle_constructed_on_half (u : ShuffleUnit) :
    u.c_shuffle.channels = u.out_channels / 2 ∧ u.c_shuffle.groups = 2 ∧
      (∀ x t, 2 ∣ u.out_channels → u.preShuffle x = some t →
        t.channels = u.out_channels ∧
        u.forward x = some (u.c_shuffle.run t)) ∧
      u.constructOkB = ((u.out_channels / 2) % 2 == 0) ∧
      ∃ m : ℕ, 2 ∣ m ∧ ((m / 2) % 2 == 0) = false := by
  refine ⟨rfl, rfl, ?_, rfl, ⟨6, by decide, by decide⟩⟩
  intro x t h2 ht
  constructor
  · cases hd : u.downsample with
    | true =>
      obtain ⟨_, _, _, _, tc, _, _⟩ := preShuffle_eq_some_down hd ht
      rw [tc]; exact mid_twice h2
    | false =>
      obtain ⟨_, _, _, _, _, tc, _, _⟩ := preShuffle_eq_some_nondown hd ht
      rw [tc]; exact mid_twice h2
  · rw [ShuffleUnit.forward, ht, Option.map_some']

/-- Witness for C9: on the concrete unit `u0` the shuffle sub-block was
constructed with channel argument 2 but receives a 4-channel tensor. -/
theorem c9_witness :
    u0.c_shuffle.channels = 2 ∧ u0.c_shuffle.groups = 2 ∧
      (u0.preShuffle x0).map Tensor.channels = some 4 := by
  have hs : (u0.preShuffle x0).isSome = true := by decide
  obtain ⟨t, ht⟩ := Option.isSome_iff_exists.mp hs
  have h := (c9_shuffle_constructed_on_half u0).2.2.1 x0 t (by decide) ht
  exact ⟨rfl, rfl, by rw [ht, Option.map_some', h.1]; rfl⟩

lemma shufflePerm_lt {C G i : ℕ} (hG : 0 < G) (hd : G ∣ C) (hi : i < C) :
    shufflePerm C G i < C := by
  obtain ⟨L, rfl⟩ := hd
  have hCG : G * L / G = L := Nat.mul_div_cancel_left L hG
  unfold shufflePerm
  rw [hCG]
  rcases Nat.eq_zero_or_pos L with rfl | hL
  · simp at hi
  · have h1 : i % L < L := Nat.mod_lt _ hL
    have h2 : i / L < G := (Nat.div_lt_iff_lt_mul hL).mpr hi
    calc i % L * G + i / L < i % L * G + G := by omega
      _ = (i % L + 1) * G := by ring
      _ ≤ L * G := Nat.mul_le_mul_right G (by omega)
      _ = G * L := Nat.mul_comm L G

lemma shufflePerm_round {C G : ℕ} (hG : 0 < G) (hd : G ∣ C) {i : ℕ}
    (hi : i < C) : shufflePerm C (C / G) (shufflePerm C G i) = i := by
  obtain ⟨L, rfl⟩ := hd
  have hCG : G * L / G = L := Nat.mul_div_cancel_left L hG
  rcases Nat.eq_zero_or_pos L with rfl | hL
  · simp at hi
  · have hCL : G * L / L = G := by
      rw [Nat.mul_comm G L]; exact Nat.mul_div_cancel_left G hL
    unfold shufflePerm
    rw [hCG, hCL]
    have h1 : i % L < L := Nat.mod_lt _ hL
    have h2 : i / L < G := (Nat.div_lt_iff_lt_mul hL).mpr hi
    have e1 : (i % L * G + i / L) % G = i / L := by
      rw [Nat.mul_comm (i % L) G, Nat.mul_add_mod, Nat.mod_eq_of_lt h2]
    have e2 : (i % L * G + i / L) / G = i % L := by
      rw [Nat.mul_comm (i % L) G, Nat.mul_add_div hG,
        Nat.div_eq_of_lt h2, Nat.add_zero]
    rw [e1, e2, Nat.add_comm, Nat.mod_add_div']

lemma shufflePerm_bijOn {C G : ℕ} (hG : 0 < G) (hd : G ∣ C) :
    Set.BijOn (shufflePerm C G) {i | i < C} {i | i < C} := by
  rcases Nat.eq_zero_or_pos C with rfl | hC
  · have he : {i : ℕ | i < 0} = ∅ := by ext i; simp
    rw [he]; exact Set.bijOn_empty _
  · have hL : 0 < C / G := Nat.div_pos (Nat.le_of_dvd hC hd) hG
    have hd2 : (C / G) ∣ C := Nat.div_dvd_of_dvd hd
    have hinv1 : ∀ i ∈ {i : ℕ | i < C},
        shufflePerm C (C / G) (shufflePerm C G i) = i :=
      fun i hi => shufflePerm_round hG hd hi
    have hinv2 : ∀ j ∈ {i : ℕ | i < C},
        shufflePerm C G (shufflePerm C (C / G) j) = j := by
      intro j hj
      have h := shufflePerm_round hL hd2 (i := j) hj
      rwa [Nat.div_div_self hd (by omega)] at h
    exact Set.InvOn.bijOn ⟨hinv1, hinv2⟩
      (fun i hi => shufflePerm_lt hG hd hi)
      (fun i hi => shufflePerm_lt hL hd2 hi)

/-- C4: the channel shuffle sends channel `g*(C/G)+o` to index `o*G+g`, it
is a bijection on the channel indices, and shuffling with `G` followed by
shuffling with `C/G` restores every channel. -/
theorem c4_channel_shuffle_properties (G : ℕ) (x : Tensor) (hG : 0 < G)
    (hd : G ∣ x.channels) :
    (∀ n g o i j, g < G → o < x.channels / G →
      (channel_shuffle x G).data n (o * G + g) i j =
        x.data n (g * (x.channels / G) + o) i j) ∧
    Set.BijOn (shufflePerm x.channels G) {i | i < x.channels}
      {i | i < x.channels} ∧
    (channel_shuffle (channel_shuffle x G) (x.channels / G)).channels =
      x.channels ∧
    (∀ n c i j, c < x.channels →
      (channel_shuffle (channel_shuffle x G) (x.channels / G)).data n c i j =
        x.data n c i j) := by
  refine ⟨?_, shufflePerm_bijOn hG hd, rfl, ?_⟩
  · intro n g o i j hg ho
    simp only [channel_shuffle]
    have e1 : (o * G + g) % G = g := by
      rw [Nat.mul_comm o G, Nat.mul_add_mod, Nat.mod_eq_of_lt hg]
    have e2 : (o * G + g) / G = o := by
      rw [Nat.mul_comm o G, Nat.mul_add_div hG, Nat.div_eq_of_lt hg,
        Nat.add_zero]
    rw [e1, e2]
  · intro n c i j hc
    have hC : 0 < x.channels := by omega
    have hGG : x.channels / (x.channels / G) = G :=
      Nat.div_div_self hd (by omega)
    simp only [channel_shuffle]
    rw [hGG]
    have h := shufflePerm_round hG hd hc
    unfold shufflePerm at h
    rw [hGG] at h
    rw [h]

/-- Witness for C4: with 4 channels and 2 groups, output channel 1 holds
input channel 2, and the G=2 then G=4/2 round trip restores channel 1. -/
theorem c4_witness :
    0 < 2 ∧ 2 ∣ x1.channels ∧
      (channel_shuffle x1 2).data 0 1 0 0 = x1.data 0 2 0 0 ∧
      (channel_shuffle (channel_shuffle x1 2) 2).data 0 1 0 0 =
        x1.data 0 1 0 0 := by
  have h := c4_channel_shuffle_properties 2 x1 (by decide) (by decide)
  refine ⟨by decide, by decide, ?_, ?_⟩
  · have h1 := h.1 0 1 0 0 0 (by decide) (by decide)
    exact h1
  · have h2 := h.2.2.2 0 1 0 0 (by decide)
    exact h2

lemma concat2_data {a b t : Tensor} (h : concat2 a b = some t) (n c i j : ℕ) :
    t.data n c i j = if c < a.channels then a.data n c i j
      else b.data n (c - a.channels) i j := by
  rw [concat2, ite_some_none_eq_some] at h
  obtain ⟨_, rfl⟩ := h
  rfl

lemma addT_data {a b t : Tensor} (h : addT a b = some t) (n c i j : ℕ) :
    t.data n c i j = a.data n c i j + b.data n c i j := by
  rw [addT, ite_some_none_eq_some] at h
  obtain ⟨_, rfl⟩ := h
  rfl

lemma forward_data {u : ShuffleUnit} {x y : Tensor}
    (h : u.forward x = some y) :
    ∃ t, u.preShuffle x = some t ∧ t.channels = y.channels ∧ ∀ n c i j,
      y.data n c i j = t.data n (c % 2 * (t.channels / 2) + c / 2) i j := by
  rw [ShuffleUnit.forward, Option.map_eq_some'] at h
  obtain ⟨t, ht, hy⟩ := h
  refine ⟨t, ht, by rw [← hy]; rfl, fun n c i j => ?_⟩
  rw [← hy]
  rfl

lemma preShuffle_nondown_residual_data {u : ShuffleUnit} {x t : Tensor}
    (hd : u.downsample = false) (hr : u.use_residual = true)
    (h : u.preShuffle x = some t) :
    ∃ z, u.transform (sndHalf x) = some z ∧ x.channels % 2 = 0 ∧
      x.channels / 2 = u.mid_channels ∧
      t.channels = u.mid_channels + u.mid_channels ∧
      ∀ n c i j, t.data n c i j =
        if c < x.channels / 2 then x.data n c i j
        else z.data n (c - x.channels / 2) i j +
          x.data n (x.channels / 2 + (c - x.channels / 2)) i j := by
  simp only [ShuffleUnit.preShuffle, hd, Bool.false_eq_true, if_false,
    Bool.not_false, Bool.and_true, Option.bind_eq_some] at h
  obtain ⟨p, hsplit, z, ez, y2, hres, hcat⟩ := h
  obtain ⟨heven, hp⟩ := split_axis2_eq_some hsplit
  subst hp
  obtain ⟨hz1, _, _, zb, zc, zh, zw⟩ := transform_eq_some ez
  rw [hd] at hz1 zh zw
  simp only [Bool.false_eq_true, if_false] at hz1 zh zw
  have hres2 : (if u.use_residual = true then addT z (sndHalf x)
      else some z) = some y2 := hres
  rw [hr] at hres2
  simp only [eq_self_iff_true, if_true] at hres2
  obtain ⟨jb, jh, jw, tb, tc, th, tw⟩ := concat2_eq_some hcat
  have hy2c : y2.channels = u.mid_channels := by
    rw [(addT_eq_some hres2).2.2.2.2.2.1, zc]
  refine ⟨z, ez, heven, hz1, ?_, ?_⟩
  · rw [tc, hy2c]
    have : (fstHalf x).channels = u.mid_channels := hz1
    rw [this]
  · intro n c i j
    rw [concat2_data hcat n c i j]
    have hfc : (fstHalf x).channels = x.channels / 2 := rfl
    rw [hfc]
    by_cases hcase : c < x.channels / 2
    · rw [if_pos hcase, if_pos hcase]
      rfl
    · rw [if_neg hcase, if_neg hcase]
      rw [addT_data hres2 n (c - x.channels / 2) i j]
      rfl

lemma transform_zero_data {u : ShuffleUnit} {x2 z : Tensor}
    (hw : u.w.expand_bn3 = ⟨fun _ => 0, fun _ => 0⟩) (hse : u.use_se = false)
    (h : u.transform x2 = some z) : ∀ n c i j, z.data n c i j = 0 := by
  simp only [ShuffleUnit.transform, Option.bind_eq_some,
    Option.map_eq_some'] at h
  obtain ⟨a, _, b, _, c, _, d, _, e, _, f, ef, hz⟩ := h
  intro n q i j
  rw [← hz, hse]
  simp only [Bool.false_eq_true, if_false]
  have hf : f.data n q i j = 0 := by
    rw [batchNorm, ite_some_none_eq_some] at ef
    obtain ⟨_, rfl⟩ := ef
    rw [hw]
    simp
  simp [relu, hf]

/-- C5 (amended): in a non-downsampling residual `ShuffleUnit`, when the
transform branch result is all zero before the residual addition, the
original second-half input channels reappear unchanged in the output — but
interleaved by the final channel shuffle: output channel `2k+1` (not the
second half of the output) equals input channel `out_channels/2 + k`. -/
theorem c5_residual_identity (u : ShuffleUnit) (x z y : Tensor)
    (hd : u.downsample = false) (hr : u.use_residual = true)
    (hC : x.channels = u.out_channels) (h2 : 2 ∣ u.out_channels)
    (hz : u.transform (sndHalf x) = some z)
    (hz0 : ∀ n c i j, n < z.batch → c < z.channels → i < z.height →
      j < z.width → z.data n c i j = 0)
    (hy : u.forward x = some y) :
    ∀ n k i j, n < x.batch → k < u.out_channels / 2 → i < x.height →
      j < x.width →
      y.data n (2 * k + 1) i j = x.data n (u.out_channels / 2 + k) i j := by
  intro n k i j hn hk hi hj
  obtain ⟨t, ht, htc, hydata⟩ := forward_data hy
  obtain ⟨z2, ez2, heven, hmid, tc, tdata⟩ :=
    preShuffle_nondown_residual_data hd hr ht
  have hzz : z2 = z := Option.some.inj (ez2.symm.trans hz)
  rw [hzz] at tdata
  obtain ⟨hz1, _, _, zb, zc, zh, zw⟩ := transform_eq_some hz
  rw [hd] at zh zw
  simp only [Bool.false_eq_true, if_false] at zh zw
  have hzb : z.batch = x.batch := zb
  have hzh : z.height = x.height := zh
  have hzw : z.width = x.width := zw
  have hmid2 : u.mid_channels = u.out_channels / 2 := rfl
  rw [hydata n (2 * k + 1) i j]
  have hidx : (2 * k + 1) % 2 * (t.channels / 2) + (2 * k + 1) / 2 =
      u.mid_channels + k := by
    rw [tc, show (2 * k + 1) % 2 = 1 from by omega, one_mul]
    omega
  rw [hidx, tdata n (u.mid_channels + k) i j]
  rw [hmid, if_neg (by omega)]
  have hsub : u.mid_channels + k - u.mid_channels = k := by omega
  rw [hsub]
  rw [hz0 n k i j (by rw [hzb]; exact hn)
    (by rw [zc, hmid2]; exact hk) (by rw [hzh]; exact hi)
    (by rw [hzw]; exact hj)]
  rw [zero_add, hmid2]

/-- Counterexample to C5 as stated: for the concrete 4-channel residual
unit with all-zero weights, the transform branch produces an all-zero
result, yet output channel 2 (the start of the output's second half) holds
input channel 1, not input channel 2: the channel shuffle interleaves the
halves instead of keeping the retained half in place. -/
theorem c5_counterexample :
    u1.downsample = false ∧ u1.use_residual = true ∧
      (u1.transform (sndHalf x1)).map (fun z => z.data 0 0 0 0) = some 0 ∧
      (u1.transform (sndHalf x1)).map (fun z => z.data 0 1 0 0) = some 0 ∧
      (u1.forward x1).map (fun y => y.data 0 2 0 0) = some 1 ∧
      x1.data 0 2 0 0 = 2 := by
  have hzs : (u1.transform (sndHalf x1)).isSome = true := by decide
  obtain ⟨z, hz⟩ := Option.isSome_iff_exists.mp hzs
  have h0 := transform_zero_data (u := u1) rfl rfl hz
  refine ⟨rfl, rfl, ?_, ?_, by decide, by decide⟩
  · rw [hz, Option.map_some', h0 0 0 0 0]
  · rw [hz, Option.map_some', h0 0 1 0 0]

/-- Witness for the amended C5: on the concrete 4-channel residual unit
with all-zero weights, output channel `2*1+1 = 3` equals input channel
`2+1 = 3` (value 3). -/
theorem c5_residual_identity_witness :
    (u1.forward x1).map (fun y => y.data 0 3 0 0) = some (x1.data 0 3 0 0) := by
  have hs : (u1.forward x1).isSome = true := by decide
  obtain ⟨y, hy⟩ := Option.isSome_iff_exists.mp hs
  have hzs : (u1.transform (sndHalf x1)).isSome = true := by decide
  obtain ⟨z, hz⟩ := Option.isSome_iff_exists.mp hzs
  have h0g := transform_zero_data (u := u1) rfl rfl hz
  have h := c5_residual_identity u1 x1 z y rfl rfl rfl (by decide) hz
    (fun n c i j _ _ _ _ => h0g n c i j) hy 0 1 0 0 (by decide) (by decide)
    (by decide) (by decide)
  rw [hy, Option.map_some']
  rw [show (2 : ℕ) * 1 + 1 = 3 from rfl] at h
  rw [h]
  rfl

lemma pyint_cast (n : ℤ) : pyint ((n : ℚ)) = n := by
  rcases le_or_lt 0 ((n : ℚ)) with h | h
  · rw [pyint, if_pos h, Int.floor_intCast]
  · rw [pyint, if_neg (not_le.mpr h), ← Int.cast_neg, Int.floor_intCast]
    ring

lemma get_shufflenetv2_cfg_eq (ws : ℚ) :
    (get_shufflenetv2_cfg ws).channels =
      [List.replicate 4 (pyint (116 * ws)),
       List.replicate 8 (pyint (232 * ws)),
       List.replicate 4 (pyint (464 * ws))] ∧
    (get_shufflenetv2_cfg ws).init_block_channels = 24 ∧
    (get_shufflenetv2_cfg ws).final_block_channels =
      (if (3 : ℚ) / 2 < ws then pyint (1024 * ws) else 1024) := by
  by_cases h1 : ws = 1
  · subst h1
    have p1 : pyint ((116 : ℚ)) = 116 := by
      rw [show ((116 : ℚ)) = (((116 : ℤ)) : ℚ) from by norm_num, pyint_cast]
    have p2 : pyint ((232 : ℚ)) = 232 := by
      rw [show ((232 : ℚ)) = (((232 : ℤ)) : ℚ) from by norm_num, pyint_cast]
    have p3 : pyint ((464 : ℚ)) = 464 := by
      rw [show ((464 : ℚ)) = (((464 : ℤ)) : ℚ) from by norm_num, pyint_cast]
    norm_num [get_shufflenetv2_cfg, List.zipWith, List.replicate,
      p1, p2, p3]
  · refine ⟨?_, ?_, ?_⟩ <;>
      norm_num [get_shufflenetv2_cfg, h1, List.zipWith, List.replicate,
        List.map_replicate]

/-- C2: for every width scale the factory config has stage channels
`[4 x trunc(116*ws), 8 x trunc(232*ws), 4 x trunc(464*ws)]` (Python `int()`
truncation; floor on the positive domain), init block channels 24, and
final block channels `trunc(1024*ws)` exactly when `ws > 1.5` and 1024
otherwise — in particular 1638 at ws=1.6 and 1024 at ws=1.2. -/
theorem c2_width_scaling (width_scale : ℚ) :
    (get_shufflenetv2_cfg width_scale).channels =
      [List.replicate 4 (pyint (116 * width_scale)),
       List.replicate 8 (pyint (232 * width_scale)),
       List.replicate 4 (pyint (464 * width_scale))] ∧
    (get_shufflenetv2_cfg width_scale).init_block_channels = 24 ∧
    (get_shufflenetv2_cfg width_scale).final_block_channels =
      (if (3 : ℚ) / 2 < width_scale then pyint (1024 * width_scale)
        else 1024) ∧
    (get_shufflenetv2_cfg (8/5)).final_block_channels = 1638 ∧
    (get_shufflenetv2_cfg (6/5)).final_block_channels = 1024 := by
  have p4 : pyint ((1024 : ℚ) * (8/5)) = 1638 :=
    pyint_eq _ _ (by norm_num) (by norm_num) (by norm_num)
  have h85 := (get_shufflenetv2_cfg_eq (8/5)).2.2
  have h65 := (get_shufflenetv2_cfg_eq (6/5)).2.2
  rw [if_pos (by norm_num)] at h85
  rw [if_neg (by norm_num)] at h65
  exact ⟨(get_shufflenetv2_cfg_eq width_scale).1,
    (get_shufflenetv2_cfg_eq width_scale).2.1,
    (get_shufflenetv2_cfg_eq width_scale).2.2, by rw [h85, p4], h65⟩

lemma cfg_wd2 : get_shufflenetv2_cfg (12/29) =
    ⟨[[48, 48, 48, 48], [96, 96, 96, 96, 96, 96, 96, 96],
      [192, 192, 192, 192]], 24, 1024⟩ := by
  have c1 : pyint ((48 : ℚ)) = 48 :=
    pyint_eq _ _ (by norm_num) (by norm_num) (by norm_num)
  have c2 : pyint ((96 : ℚ)) = 96 :=
    pyint_eq _ _ (by norm_num) (by norm_num) (by norm_num)
  have c3 : pyint ((192 : ℚ)) = 192 :=
    pyint_eq _ _ (by norm_num) (by norm_num) (by norm_num)
  norm_num [get_shufflenetv2_cfg, List.zipWith, List.replicate, c1, c2, c3]

lemma cfg_w1 : get_shufflenetv2_cfg 1 =
    ⟨[[116, 116, 116, 116], [232, 232, 232, 232, 232, 232, 232, 232],
      [464, 464, 464, 464]], 24, 1024⟩ := by
  norm_num [get_shufflenetv2_cfg, List.zipWith, List.replicate]

lemma cfg_w3d2 : get_shufflenetv2_cfg (44/29) =
    ⟨[[176, 176, 176, 176], [352, 352, 352, 352, 352, 352, 352, 352],
      [704, 704, 704, 704]], 24, 1553⟩ := by
  have c1 : pyint ((176 : ℚ)) = 176 :=
    pyint_eq _ _ (by norm_num) (by norm_num) (by norm_num)
  have c2 : pyint ((352 : ℚ)) = 352 :=
    pyint_eq _ _ (by norm_num) (by norm_num) (by norm_num)
  have c3 : pyint ((704 : ℚ)) = 704 :=
    pyint_eq _ _ (by norm_num) (by norm_num) (by norm_num)
  have c4 : pyint ((45056 : ℚ) / 29) = 1553 :=
    pyint_eq _ _ (by norm_num) (by norm_num) (by norm_num)
  norm_num [get_shufflenetv2_cfg, List.zipWith, List.replicate,
    c1, c2, c3, c4]

lemma cfg_w2 : get_shufflenetv2_cfg (61/29) =
    ⟨[[244, 244, 244, 244], [488, 488, 488, 488, 488, 488, 488, 488],
      [976, 976, 976, 976]], 24, 2153⟩ := by
  have c1 : pyint ((244 : ℚ)) = 244 :=
    pyint_eq _ _ (by norm_num) (by norm_num) (by norm_num)
  have c2 : pyint ((488 : ℚ)) = 488 :=
    pyint_eq _ _ (by norm_num) (by norm_num) (by norm_num)
  have c3 : pyint ((976 : ℚ)) = 976 :=
    pyint_eq _ _ (by norm_num) (by norm_num) (by norm_num)
  have c4 : pyint ((62464 : ℚ) / 29) = 2153 :=
    pyint_eq _ _ (by norm_num) (by norm_num) (by norm_num)
  norm_num [get_shufflenetv2_cfg, List.zipWith, List.replicate,
    c1, c2, c3, c4]

lemma cfg_1003 : get_shufflenetv2_cfg (1003/1000) =
    ⟨[[116, 116, 116, 116], [232, 232, 232, 232, 232, 232, 232, 232],
      [465, 465, 465, 465]], 24, 1024⟩ := by
  have c1 : pyint ((29087 : ℚ) / 250) = 116 :=
    pyint_eq _ _ (by norm_num) (by norm_num) (by norm_num)
  have c2 : pyint ((29087 : ℚ) / 125) = 232 :=
    pyint_eq _ _ (by norm_num) (by norm_num) (by norm_num)
  have c3 : pyint ((58174 : ℚ) / 125) = 465 :=
    pyint_eq _ _ (by norm_num) (by norm_num) (by norm_num)
  norm_num [get_shufflenetv2_cfg, List.zipWith, List.replicate, c1, c2, c3]

lemma count_wd2 (seP : ℕ → ℕ) (Wt : NetW) :
    (factoryNet (12/29) false false 3 1000 Wt).paramCount seP = 1366792 := by
  have h24 : (24 : ℤ).toNat = 24 := rfl
  have h48 : (48 : ℤ).toNat = 48 := rfl
  have h96 : (96 : ℤ).toNat = 96 := rfl
  have h192 : (192 : ℤ).toNat = 192 := rfl
  have h1024 : (1024 : ℤ).toNat = 1024 := rfl
  rw [factoryNet, cfg_wd2]
  norm_num [mkShuffleNetV2, buildStages, buildUnits, lastChannel,
    ShuffleNetV2.paramCount, ShuffleUnit.paramCount, ShuffleUnit.mid_channels,
    ShuffleConv.paramCount, convParamCount, bnParamCount,
    h24, h48, h96, h192, h1024]

lemma count_w1 (seP : ℕ → ℕ) (Wt : NetW) :
    (factoryNet 1 false false 3 1000 Wt).paramCount seP = 2278604 := by
  have h24 : (24 : ℤ).toNat = 24 := rfl
  have h116 : (116 : ℤ).toNat = 116 := rfl
  have h232 : (232 : ℤ).toNat = 232 := rfl
  have h464 : (464 : ℤ).toNat = 464 := rfl
  have h1024 : (1024 : ℤ).toNat = 1024 := rfl
  rw [factoryNet, cfg_w1]
  norm_num [mkShuffleNetV2, buildStages, buildUnits, lastChannel,
    ShuffleNetV2.paramCount, ShuffleUnit.paramCount, ShuffleUnit.mid_channels,
    ShuffleConv.paramCount, convParamCount, bnParamCount,
    h24, h116, h232, h464, h1024]

lemma count_w3d2 (seP : ℕ → ℕ) (Wt : NetW) :
    (factoryNet (44/29) false false 3 1000 Wt).paramCount seP = 4406098 := by
  have h24 : (24 : ℤ).toNat = 24 := rfl
  have h176 : (176 : ℤ).toNat = 176 := rfl
  have h352 : (352 : ℤ).toNat = 352 := rfl
  have h704 : (704 : ℤ).toNat = 704 := rfl
  have h1553 : (1553 : ℤ).toNat = 1553 := rfl
  rw [factoryNet, cfg_w3d2]
  norm_num [mkShuffleNetV2, buildStages, buildUnits, lastChannel,
    ShuffleNetV2.paramCount, ShuffleUnit.paramCount, ShuffleUnit.mid_channels,
    ShuffleConv.paramCount, convParamCount, bnParamCount,
    h24, h176, h352, h704, h1553]

lemma count_w2 (seP : ℕ → ℕ) (Wt : NetW) :
    (factoryNet (61/29) false false 3 1000 Wt).paramCount seP = 7601686 := by
  have h24 : (24 : ℤ).toNat = 24 := rfl
  have h244 : (244 : ℤ).toNat = 244 := rfl
  have h488 : (488 : ℤ).toNat = 488 := rfl
  have h976 : (976 : ℤ).toNat = 976 := rfl
  have h2153 : (2153 : ℤ).toNat = 2153 := rfl
  rw [factoryNet, cfg_w2]
  norm_num [mkShuffleNetV2, buildStages, buildUnits, lastChannel,
    ShuffleNetV2.paramCount, ShuffleUnit.paramCount, ShuffleUnit.mid_channels,
    ShuffleConv.paramCount, convParamCount, bnParamCount,
    h24, h244, h488, h976, h2153]

/-- C1: the four canonical factory entry points (width scales 12/29, 1,
44/29, 61/29 with classes=1000, in_channels=3, use_se=false,
use_residual=false) construct networks with exactly 1366792 / 2278604 /
4406098 / 7601686 learnable parameters, for every weight initialization
and every SE parameter-count model (SE blocks are never constructed
here). -/
theorem c1_parameter_counts (seP : ℕ → ℕ) (Wt : NetW) :
    (factoryNet (12/29) false false 3 1000 Wt).paramCount seP = 1366792 ∧
    (factoryNet 1 false false 3 1000 Wt).paramCount seP = 2278604 ∧
    (factoryNet (44/29) false false 3 1000 Wt).paramCount seP = 4406098 ∧
    (factoryNet (61/29) false false 3 1000 Wt).paramCount seP = 7601686 :=
  ⟨count_wd2 seP Wt, count_w1 seP Wt, count_w3d2 seP Wt, count_w2 seP Wt⟩

lemma chan_pos {c : ℤ} (h : chanConstructOkZ c = true) : 2 ≤ c := by
  rw [chanConstructOkZ, Bool.and_eq_true, decide_eq_true_eq] at h
  obtain ⟨h1, -⟩ := h
  omega

lemma pyint_nonpos {q : ℚ} (h : q ≤ 0) : pyint q ≤ 0 := by
  rw [pyint]
  split_ifs with h0
  · have h1 : ⌊q⌋ ≤ ⌊(0 : ℚ)⌋ := Int.floor_mono h
    rw [Int.floor_zero] at h1
    exact h1
  · have h1 : (0 : ℤ) ≤ ⌊-q⌋ := Int.le_floor.mpr (by push_cast; linarith)
    omega

lemma unitsConstructOkZ_pos :
    ∀ (cs : List ℤ) (j : ℕ) (inC : ℤ), j ≠ 0 →
      unitsConstructOkZ j inC cs = cs.all chanConstructOkZ := by
  intro cs
  induction cs with
  | nil => intro j inC hj; rfl
  | cons c rest ih =>
    intro j inC hj
    have hj0 : (j == 0) = false := by
      rw [beq_eq_false_iff_ne]; exact hj
    simp only [unitsConstructOkZ, List.all_cons, ih (j + 1) c
      (by omega), hj0, unitConstructOkZ, chanConstructOkZ, Bool.not_false,
      Bool.true_or, Bool.and_true]

lemma unitsConstructOkZ_zero (cs : List ℤ) (inC : ℤ) (h : 0 < inC) :
    unitsConstructOkZ 0 inC cs = cs.all chanConstructOkZ := by
  cases cs with
  | nil => rfl
  | cons c rest =>
    have hin : decide (0 < inC) = true := decide_eq_true h
    simp only [unitsConstructOkZ, List.all_cons,
      unitsConstructOkZ_pos rest 1 c (by omega), unitConstructOkZ,
      chanConstructOkZ, Nat.zero_eq, beq_self_eq_true, Bool.not_true,
      Bool.false_or, hin, Bool.and_true]

lemma foldl_last_pos :
    ∀ (cs : List ℤ) (inC : ℤ), 0 < inC →
      cs.all chanConstructOkZ = true →
      0 < cs.foldl (fun _ c => c) inC := by
  intro cs
  induction cs with
  | nil => intro inC h _; exact h
  | cons c rest ih =>
    intro inC h hall
    rw [List.all_cons, Bool.and_eq_true] at hall
    exact ih c (by have := chan_pos hall.1; omega) hall.2

lemma stagesConstructOkZ_eq :
    ∀ (chs : List (List ℤ)) (inC : ℤ), 0 < inC →
      stagesConstructOkZ inC chs =
        chs.all fun cs => cs.all chanConstructOkZ := by
  intro chs
  induction chs with
  | nil => intro inC h; rfl
  | cons cs rest ih =>
    intro inC h
    simp only [stagesConstructOkZ, List.all_cons,
      unitsConstructOkZ_zero cs inC h]
    cases hcs : cs.all chanConstructOkZ with
    | false => simp
    | true =>
      simp only [Bool.true_and]
      exact ih _ (foldl_last_pos cs inC h hcs)

/-- C7 (amended): the factory performs no explicit `width_scale`
validation; `ShuffleNetV2.__init__` raises exactly when some scaled stage
channel count `c` fails the per-unit construction check — `c/2 ≤ 0`
(negative parameter dimension, or a zero depthwise group count; this holds
for every `width_scale ≤ 0`), or `c/2` odd (the `ChannelShuffle` assert).
A positive odd stage channel count `c` with `c/2` even (`c % 4 = 1`)
raises nothing at construction: the failure is deferred to the forward
pass. -/
theorem c7_construction_errors (width_scale : ℚ) (Wt : NetW)
    (se res : Bool) (inC cls : ℕ) (mn : Option String) :
    (get_shufflenetv2 width_scale mn false se res inC cls Wt =
        FactoryOutcome.constructionError ↔
      ((get_shufflenetv2_cfg width_scale).channels.all fun cs =>
        cs.all chanConstructOkZ) = false) ∧
    (width_scale ≤ 0 →
      get_shufflenetv2 width_scale mn false se res inC cls Wt =
        FactoryOutcome.constructionError) := by
  have heq : factoryConstructOkB width_scale =
      ((get_shufflenetv2_cfg width_scale).channels.all fun cs =>
        cs.all chanConstructOkZ) := by
    rw [factoryConstructOkB, (get_shufflenetv2_cfg_eq width_scale).2.1]
    exact stagesConstructOkZ_eq _ 24 (by norm_num)
  have hiff : get_shufflenetv2 width_scale mn false se res inC cls Wt =
      FactoryOutcome.constructionError ↔
      ((get_shufflenetv2_cfg width_scale).channels.all fun cs =>
        cs.all chanConstructOkZ) = false := by
    simp only [get_shufflenetv2, heq]
    cases hres : ((get_shufflenetv2_cfg width_scale).channels.all fun cs =>
        cs.all chanConstructOkZ) with
    | true => simp
    | false => simp
  refine ⟨hiff, fun hws => hiff.mpr ?_⟩
  by_contra hcon
  rw [Bool.not_eq_false, (get_shufflenetv2_cfg_eq width_scale).1,
    List.all_eq_true] at hcon
  have h1 := hcon (List.replicate 4 (pyint (116 * width_scale)))
    (List.mem_cons_self _ _)
  rw [List.all_eq_true] at h1
  have h2 := h1 (pyint (116 * width_scale))
    (List.mem_replicate.mpr ⟨by norm_num, rfl⟩)
  have h3 := chan_pos h2
  have h4 : pyint (116 * width_scale) ≤ 0 :=
    pyint_nonpos (by nlinarith)
  omega

/-- Counterexample to C7 as stated: at width scale 1.003 the third stage
channel count is 465 (not divisible by 2), yet the factory call raises no
error at construction — the outcome is a constructed network. -/
theorem c7_counterexample :
    (get_shufflenetv2_cfg (1003/1000)).channels =
      [[116, 116, 116, 116], [232, 232, 232, 232, 232, 232, 232, 232],
        [465, 465, 465, 465]] ∧
    (465 % 2 = 1) ∧
    (get_shufflenetv2 (1003/1000) none false false false 3 1000
        zeroW).isError = false := by
  refine ⟨by rw [cfg_1003], by decide, ?_⟩
  have hok : factoryConstructOkB (1003/1000) = true := by
    rw [factoryConstructOkB, cfg_1003]
    decide
  simp only [get_shufflenetv2]
  rw [hok]
  rfl

/-- Witness for the amended C7: a negative width scale (here -1) makes the
factory call fail at construction. -/
theorem c7_witness :
    ((-1 : ℚ) ≤ 0) ∧
    get_shufflenetv2 (-1) none false false false 3 1000 zeroW =
      FactoryOutcome.constructionError :=
  ⟨by norm_num,
    (c7_construction_errors (-1) zeroW false false 3 1000 none).2
      (by norm_num)⟩

/-- C8: requesting pretrained weights with a `None` or empty `model_name`
never touches the weight store, and (whenever construction itself passes)
raises exactly the `ValueError`; with `pretrained=false` the store is never
accessed and no model-name error can occur, whatever `model_name` is. -/
theorem c8_pretrained_model_name (width_scale : ℚ) (Wt : NetW)
    (se res : Bool) (inC cls : ℕ) :
    (∀ mn : Option String, mn = none ∨ mn = some "" →
      (get_shufflenetv2 width_scale mn true se res inC cls
          Wt).storeAccessed = false ∧
      (factoryConstructOkB width_scale = true →
        get_shufflenetv2 width_scale mn true se res inC cls Wt =
          FactoryOutcome.valueError)) ∧
    (∀ mn : Option String,
      (get_shufflenetv2 width_scale mn false se res inC cls
          Wt).storeAccessed = false ∧
      get_shufflenetv2 width_scale mn false se res inC cls Wt ≠
        FactoryOutcome.valueError) := by
  constructor
  · intro mn hmn
    simp only [get_shufflenetv2]
    cases hok : factoryConstructOkB width_scale with
    | false =>
      constructor
      · simp [FactoryOutcome.storeAccessed]
      · intro h
        exact absurd h (by simp)
    | true =>
      rcases hmn with rfl | rfl
      · constructor
        · simp [FactoryOutcome.storeAccessed]
        · intro _
          simp
      · constructor
        · simp [FactoryOutcome.storeAccessed]
        · intro _
          simp
  · intro mn
    simp only [get_shufflenetv2]
    cases hok : factoryConstructOkB width_scale with
    | false =>
      constructor
      · simp [FactoryOutcome.storeAccessed]
      · simp
    | true =>
      constructor
      · simp [FactoryOutcome.storeAccessed]
      · simp

/-- Witness for C8: at width scale 1 a pretrained request without a model
name yields exactly the `ValueError` with no store access, while the normal
non-pretrained call performs no store access. -/
theorem c8_witness :
    get_shufflenetv2 1 none true false false 3 1000 zeroW =
        FactoryOutcome.valueError ∧
      (get_shufflenetv2 1 none true false false 3 1000
        zeroW).storeAccessed = false ∧
      (get_shufflenetv2 1 (some "shufflenetv2_w1") false false false 3 1000
        zeroW).storeAccessed = false := by
  have h := c8_pretrained_model_name 1 zeroW false false 3 1000
  have hok : factoryConstructOkB 1 = true := by
    rw [factoryConstructOkB, cfg_w1]
    decide
  exact ⟨(h.1 none (Or.inl rfl)).2 hok, (h.1 none (Or.inl rfl)).1,
    (h.2 (some "shufflenetv2_w1")).1⟩

lemma runUnits_replicate_nondown (se res : Bool) (w : ℕ → UnitW) (c : ℕ)
    (h2 : 2 ∣ c) :
    ∀ (m j inC : ℕ) (x : Tensor), j ≠ 0 → x.channels = c → 1 ≤ x.height →
      1 ≤ x.width →
      ∃ y, runUnits (buildUnits se res w j inC (List.replicate m c)) x =
          some y ∧
        y.batch = x.batch ∧ y.channels = c ∧ y.height = x.height ∧
        y.width = x.width := by
  intro m
  induction m with
  | zero =>
    intro j inC x hj hC hH hW
    exact ⟨x, rfl, rfl, hC, rfl, rfl⟩
  | succ m ih =>
    intro j inC x hj hC hH hW
    obtain ⟨y, hy, yb, yc, yh, yw⟩ := forward_some_nondown
      ⟨inC, c, j == 0, se, res, w j⟩ x
      (by rw [show (⟨inC, c, j == 0, se, res, w j⟩ :
          ShuffleUnit).downsample = (j == 0) from rfl,
        beq_eq_false_iff_ne]; exact hj) h2 hC hH hW
    obtain ⟨y2, hy2, y2b, y2c, y2h, y2w⟩ := ih (j + 1) c y (by omega) yc
      (by rw [yh]; exact hH) (by rw [yw]; exact hW)
    refine ⟨y2, ?_, by rw [y2b, yb], y2c, by rw [y2h, yh],
      by rw [y2w, yw]⟩
    rw [List.replicate_succ]
    simp only [buildUnits, runUnits, hy, Option.some_bind, hy2]

lemma runStage_shape (se res : Bool) (w : ℕ → UnitW) (c m inC : ℕ)
    (h2 : 2 ∣ c) (x : Tensor) (hC : x.channels = inC) (hH : 1 ≤ x.height)
    (hW : 1 ≤ x.width) :
    ∃ y, runUnits (buildUnits se res w 0 inC (List.replicate (m + 1) c))
        x = some y ∧
      y.batch = x.batch ∧ y.channels = c ∧
      y.height = (x.height - 1) / 2 + 1 ∧
      y.width = (x.width - 1) / 2 + 1 := by
  obtain ⟨y, hy, yb, yc, yh, yw⟩ := forward_some_down
    ⟨inC, c, 0 == 0, se, res, w 0⟩ x rfl h2 hC hH hW
  obtain ⟨y2, hy2, y2b, y2c, y2h, y2w⟩ := runUnits_replicate_nondown se res
    w c h2 m 1 c y (by omega) yc (by rw [yh]; omega) (by rw [yw]; omega)
  refine ⟨y2, ?_, by rw [y2b, yb], y2c, by rw [y2h, yh],
    by rw [y2w, yw]⟩
  rw [List.replicate_succ]
  simp only [buildUnits, runUnits, hy, Option.some_bind, hy2]

lemma shuffleNetV2_forward_shape (c1 c2 c3 initC finalC cls inC : ℕ)
    (se res : Bool) (Wt : NetW) (N H W : ℕ) (d : ℕ → ℕ → ℕ → ℕ → ℚ)
    (h1 : 2 ∣ c1) (h2 : 2 ∣ c2) (h3 : 2 ∣ c3) (hf : 0 < finalC)
    (hpH : 3 ≤ convOutSize H 3 2 1) (hpW : 3 ≤ convOutSize W 3 2 1)
    (haH : 7 ≤ featSize H) (haW : 7 ≤ featSize W) :
    ∃ m, (mkShuffleNetV2 [List.replicate 4 c1, List.replicate 8 c2,
        List.replicate 4 c3] initC finalC se res inC cls
        Wt).forward ⟨N, inC, H, W, d⟩ = some m ∧
      m.rows = N * (featSize H - 6) * (featSize W - 6) ∧ m.cols = cls := by
  have hH1 : 3 ≤ H + 2 * 1 := by unfold convOutSize at hpH; omega
  have hW1 : 3 ≤ W + 2 * 1 := by unfold convOutSize at hpW; omega
  obtain ⟨a, ea, ab, ac, ah, aw⟩ := conv2d_some inC initC 3 2 1 1 Wt.init_w
    ⟨N, inC, H, W, d⟩ rfl hH1 hW1
  obtain ⟨b, eb, bb, bc, bh, bw⟩ := batchNorm_some initC Wt.init_bn a ac
  obtain ⟨pz, ep, pb, pc, ph, pw⟩ := max_pooling_2d_some 3 2 (relu b)
    (by rw [show (relu b).height = b.height from rfl, bh, ah]; exact hpH)
    (by rw [show (relu b).width = b.width from rfl, bw, aw]; exact hpW)
  obtain ⟨s1, es1, s1b, s1c, s1h, s1w⟩ := runStage_shape se res
    (Wt.unit_w 0) c1 3 initC h1 pz
    (by rw [pc]; rw [show (relu b).channels = b.channels from rfl, bc, ac])
    (by rw [ph]; omega) (by rw [pw]; omega)
  norm_num at es1
  obtain ⟨s2, es2, s2b, s2c, s2h, s2w⟩ := runStage_shape se res
    (Wt.unit_w 1) c2 7 c1 h2 s1 s1c (by rw [s1h]; omega)
    (by rw [s1w]; omega)
  norm_num at es2
  obtain ⟨s3, es3, s3b, s3c, s3h, s3w⟩ := runStage_shape se res
    (Wt.unit_w 2) c3 3 c2 h3 s2 s2c (by rw [s2h]; omega)
    (by rw [s2w]; omega)
  norm_num at es3
  have hfH : s3.height = featSize H := by
    rw [s3h, s2h, s1h, ph, show (relu b).height = b.height from rfl, bh,
      ah]
    rfl
  have hfW : s3.width = featSize W := by
    rw [s3w, s2w, s1w, pw, show (relu b).width = b.width from rfl, bw, aw]
    rfl
  have hlast : lastChannel initC [List.replicate 4 c1, List.replicate 8 c2,
      List.replicate 4 c3] = c3 := by
    norm_num [lastChannel, List.replicate]
  obtain ⟨fc, efc, fcb, fcc, fch, fcw⟩ := conv2d_some
    (lastChannel initC [List.replicate 4 c1, List.replicate 8 c2,
      List.replicate 4 c3]) finalC 1 1 0 1 Wt.final_w s3
    (by rw [hlast]; exact s3c) (by rw [hfH]; omega) (by rw [hfW]; omega)
  obtain ⟨fb2, efb, fbb, fbc, fbh, fbw⟩ := batchNorm_some finalC Wt.final_bn
    fc fcc
  obtain ⟨q, eq2, qb, qc, qh, qw⟩ := average_pooling_2d_some 7 1 (relu fb2)
    (by rw [show (relu fb2).height = fb2.height from rfl, fbh, fch,
      convOutSize_k1 (by rw [hfH]; omega), hfH]; omega)
    (by rw [show (relu fb2).width = fb2.width from rfl, fbw, fcw,
      convOutSize_k1 (by rw [hfW]; omega), hfW]; omega)
  have hqh : q.height = featSize H - 6 := by
    rw [qh, show (relu fb2).height = fb2.height from rfl, fbh, fch,
      convOutSize_k1 (by rw [hfH]; omega), hfH]
    omega
  have hqw : q.width = featSize W - 6 := by
    rw [qw, show (relu fb2).width = fb2.width from rfl, fbw, fcw,
      convOutSize_k1 (by rw [hfW]; omega), hfW]
    omega
  have hqb : q.batch = N := by
    rw [qb, show (relu fb2).batch = fb2.batch from rfl, fbb, fcb, s3b, s2b,
      s1b, pb, show (relu b).batch = b.batch from rfl, bb, ab]
  have hqc : q.channels = finalC := by
    rw [qc, show (relu fb2).channels = fb2.channels from rfl, fbc, fcc]
  have hde : q.batch * q.channels * q.height * q.width =
      finalC * (N * (featSize H - 6) * (featSize W - 6)) := by
    rw [hqb, hqc, hqh, hqw]; ring
  obtain ⟨r, er, rr, rc⟩ := reshapeFlatten_some finalC q
    (by rw [hde, Nat.mul_mod_right])
  have hrr : r.rows = N * (featSize H - 6) * (featSize W - 6) := by
    rw [rr, hde, Nat.mul_div_cancel_left _ hf]
  obtain ⟨m, em, mr, mc⟩ := linear_some finalC cls Wt.fc r rc
  refine ⟨m, ?_, by rw [mr, hrr], mc⟩
  have hfold1 : (List.replicate 4 c1).foldl (fun _ c => c) initC = c1 := by
    norm_num [List.replicate]
  have hfold2 : (List.replicate 8 c2).foldl (fun _ c => c) c1 = c2 := by
    norm_num [List.replicate]
  simp only [mkShuffleNetV2, ShuffleNetV2.forward, ShuffleInitBlock.run,
    ShuffleConv.run, buildStages, hfold1, hfold2, runStages, ea,
    Option.some_bind, eb, Option.map_some', ep, es1, es2, es3, efc, efb,
    eq2, er, em]

/-- C6 (amended): a factory-shaped network (stages of 4/8/4 units with even
channel counts) maps any `[N, in_channels, 224, 224]` input to a
`[N, classes]` output; more generally, whenever every convolution/pooling
window fits (in particular whenever the pre-pooling map is at least 7x7after
the stride schedule), the forward pass succeeds — returning
`[N*(h-6)*(w-6), classes]` for a pre-pooling map of size `h x w` — instead
of raising a shape error, so inputs other than 224x224 with larger maps do
not error. -/
theorem c6_forward_output (c1 c2 c3 finalC cls inC : ℕ) (se res : Bool)
    (Wt : NetW) (h1 : 2 ∣ c1) (h2 : 2 ∣ c2) (h3 : 2 ∣ c3)
    (hf : 0 < finalC) :
    (∀ N d, ∃ m, (mkShuffleNetV2 [List.replicate 4 c1, List.replicate 8 c2,
        List.replicate 4 c3] 24 finalC se res inC cls Wt).forward
        ⟨N, inC, 224, 224, d⟩ = some m ∧ m.rows = N ∧ m.cols = cls) ∧
    (∀ N H W d, 3 ≤ convOutSize H 3 2 1 → 3 ≤ convOutSize W 3 2 1 →
      7 ≤ featSize H → 7 ≤ featSize W →
      ∃ m, (mkShuffleNetV2 [List.replicate 4 c1, List.replicate 8 c2,
          List.replicate 4 c3] 24 finalC se res inC cls Wt).forward
          ⟨N, inC, H, W, d⟩ = some m ∧
        m.rows = N * (featSize H - 6) * (featSize W - 6) ∧ m.cols = cls) := by
  constructor
  · intro N d
    obtain ⟨m, em, mr, mc⟩ := shuffleNetV2_forward_shape c1 c2 c3 24 finalC
      cls inC se res Wt N 224 224 d h1 h2 h3 hf
      (by norm_num [convOutSize]) (by norm_num [convOutSize])
      (by norm_num [featSize, convOutSize])
      (by norm_num [featSize, convOutSize])
    refine ⟨m, em, ?_, mc⟩
    rw [mr, show featSize 224 = 7 from by norm_num [featSize, convOutSize]]
    omega
  · intro N H W d hpH hpW haH haW
    exact shuffleNetV2_forward_shape c1 c2 c3 24 finalC cls inC se res Wt
      N H W d h1 h2 h3 hf hpH hpW haH haW

/-- Witness for the amended C6: the 0.5x-shaped network on a concrete
1x3x224x224 input returns a 1x1000 output. -/
theorem c6_forward_output_witness :
    ((mkShuffleNetV2 [List.replicate 4 48, List.replicate 8 96,
        List.replicate 4 192] 24 1024 false false 3 1000
        zeroW).forward xin224).map Mat2.rows = some 1 ∧
    ((mkShuffleNetV2 [List.replicate 4 48, List.replicate 8 96,
        List.replicate 4 192] 24 1024 false false 3 1000
        zeroW).forward xin224).map Mat2.cols = some 1000 := by
  obtain ⟨m, em, mr, mc⟩ := (c6_forward_output 48 96 192 1024 1000 3 false
    false zeroW (by decide) (by decide) (by decide) (by decide)).1 1
    (fun _ _ _ _ => 0)
  constructor
  · rw [show xin224 = ⟨1, 3, 224, 224, fun _ _ _ _ => 0⟩ from rfl, em,
      Option.map_some', mr]
  · rw [show xin224 = ⟨1, 3, 224, 224, fun _ _ _ _ => 0⟩ from rfl, em,
      Option.map_some', mc]

/-- Counterexample to C6 as stated: a 1x3x448x448 input yields a 14x14
pre-pooling map (not 7x7), yet the forward pass of the 0.5x model raises no
shape error — it returns a 64x1000 output. -/
theorem c6_counterexample :
    xin448.height = 448 ∧ featSize 448 = 14 ∧
      ((factoryNet (12/29) false false 3 1000 zeroW).forward xin448).map
        Mat2.rows = some 64 ∧
      ((factoryNet (12/29) false false 3 1000 zeroW).forward xin448).map
        Mat2.cols = some 1000 := by
  have hfeat : featSize 448 = 14 := by norm_num [featSize, convOutSize]
  have hch : List.map (List.map Int.toNat)
      ([[48, 48, 48, 48], [96, 96, 96, 96, 96, 96, 96, 96],
        [192, 192, 192, 192]] : List (List ℤ)) =
      [List.replicate 4 48, List.replicate 8 96, List.replicate 4 192] := by
    decide
  have h24 : (24 : ℤ).toNat = 24 := rfl
  have h1024 : (1024 : ℤ).toNat = 1024 := rfl
  obtain ⟨m, em, mr, mc⟩ := shuffleNetV2_forward_shape 48 96 192 24 1024
    1000 3 false false zeroW 1 448 448 (fun _ _ _ _ => 0) (by decide)
    (by decide) (by decide) (by decide) (by norm_num [convOutSize])
    (by norm_num [convOutSize]) (by rw [hfeat]; omega)
    (by rw [hfeat]; omega)
  refine ⟨rfl, hfeat, ?_, ?_⟩
  · rw [factoryNet, cfg_wd2]
    simp only [hch, h24, h1024]
    rw [show xin448 = ⟨1, 3, 448, 448, fun _ _ _ _ => 0⟩ from rfl, em,
      Option.map_some', mr, hfeat]
  · rw [factoryNet, cfg_wd2]
    simp only [hch, h24, h1024]
    rw [show xin448 = ⟨1, 3, 448, 448, fun _ _ _ _ => 0⟩ from rfl, em,
      Option.map_some', mc]
